import Mathlib

/-!
Shallow embedding of the fire-spread simulation core
(`src/core/cell.py`, `src/core/fire_engine.py`,
`src/core/cellular_automaton.py`, `src/core/terrain.py`).

Modelling conventions:
* Python floats are modelled by `ℝ`; `math.exp`, `math.atan`, `math.sqrt`
  and Python `**` on floats are `Real.exp`, `Real.arctan`, `Real.sqrt`
  and `Real.rpow`.
* Python objects live in an arena: the automaton owns `cells : List Cell`
  and every other collection (populations, worklists, neighbour lists)
  stores arena indices, playing the role of object identity.
* Mutation becomes explicit state passing; `dict` accumulation becomes an
  association list with the same key-membership semantics.
* The cached `_ignition_threshold` of `Cell` is invalidated on every
  moisture write and on ignition, so the cache can never be stale; it is
  modelled by the recomputing function `Cell.ignition_threshold`.
* `random.random()` / `random.uniform` draws in the spotting stage are
  supplied by an oracle `rng : ℕ → ℝ × ℝ` giving one pair of draws per
  iteration of the burning-canopy loop.
-/

open Classical

noncomputable section

namespace FireSpread

/-- Fire state of a cell, from `CellState` in `src/core/cell.py`. -/
inductive CellState where
  | UNBURNED
  | SURFACE_FIRE
  | CROWN_FIRE
  | BURNED_OUT
deriving DecidableEq

/-- Layer tag, from `LayerType` in `src/core/cell.py`. -/
inductive LayerType where
  | SURFACE
  | CANOPY
deriving DecidableEq

/-- Static attributes of a cell (`StaticAttributes` in `src/core/cell.py`). -/
structure StaticAttributes where
  id : ℕ
  position : ℝ × ℝ × ℝ
  slope : ℝ
  aspect : ℝ
  layer_type : LayerType
  canopy_base_height : ℝ := 3
  canopy_bulk_density : ℝ := 0.1
  heat_content : ℝ := 18500
  ignition_temp : ℝ := 315

/-- Dynamic attributes of a cell (`DynamicAttributes` in `src/core/cell.py`). -/
structure DynamicAttributes where
  state : CellState := CellState.UNBURNED
  fuel_load : ℝ := 2
  moisture_content : ℝ := 0.12
  energy : ℝ := 0
  temperature : ℝ := 20
  burn_time : ℝ := 0

/-- A cell: static plus dynamic attributes, neighbour arena indices, and the
ignition parameters set by `set_ignition_parameters` (defaults are the
`getattr` fallbacks used by the `ignition_threshold` property). -/
structure Cell where
  static : StaticAttributes
  dynamic : DynamicAttributes
  neighbors : List ℕ := []
  base_ignition_energy : ℝ := 100
  ignition_moisture_factor : ℝ := 2

instance : Inhabited Cell :=
  ⟨{ static := { id := 0, position := (0, 0, 0), slope := 0, aspect := 0,
                 layer_type := LayerType.SURFACE },
     dynamic := {} }⟩

/-- Ignition threshold (`Cell.ignition_threshold` property): the cached value
is reset by every `update_moisture` and `ignite` call, so it always equals
this recomputation from the current moisture content. -/
def Cell.ignition_threshold (c : Cell) : ℝ :=
  c.base_ignition_energy *
    Real.exp (c.ignition_moisture_factor * c.dynamic.moisture_content)

/-- Three-dimensional Euclidean distance (`Cell.distance_to`). -/
def Cell.distance_to (c other : Cell) : ℝ :=
  Real.sqrt ((other.static.position.1 - c.static.position.1) ^ 2 +
             (other.static.position.2.1 - c.static.position.2.1) ^ 2 +
             (other.static.position.2.2 - c.static.position.2.2) ^ 2)

/-- Ignition eligibility (`Cell.can_ignite`). -/
def Cell.can_ignite (c : Cell) : Prop :=
  c.dynamic.state = CellState.UNBURNED ∧ c.ignition_threshold ≤ c.dynamic.energy

/-- Ignition (`Cell.ignite`): no-op unless UNBURNED; resets the burn time
(the cache invalidation is implicit in the recomputing threshold model). -/
def Cell.ignite (c : Cell) (fire_type : CellState) : Cell :=
  if c.dynamic.state = CellState.UNBURNED then
    { c with dynamic := { c.dynamic with state := fire_type, burn_time := 0 } }
  else c

/-- Burn-out (`Cell.burn_out`): forces BURNED_OUT and zeroes the fuel load. -/
def Cell.burn_out (c : Cell) : Cell :=
  { c with dynamic := { c.dynamic with state := CellState.BURNED_OUT, fuel_load := 0 } }

/-- Energy accumulation (`Cell.update_energy`). -/
def Cell.update_energy (c : Cell) (energy_delta : ℝ) : Cell :=
  { c with dynamic := { c.dynamic with energy := c.dynamic.energy + energy_delta } }

/-- Moisture update (`Cell.update_moisture`), clamped at zero. -/
def Cell.update_moisture (c : Cell) (moisture_delta : ℝ) : Cell :=
  { c with dynamic := { c.dynamic with
      moisture_content := max 0 (c.dynamic.moisture_content + moisture_delta) } }

/-- Fuel consumption (`Cell.consume_fuel`): subtracts `rate · dt` floored at
zero, increments the burn time, and burns out when the fuel reaches zero. -/
def Cell.consume_fuel (c : Cell) (consumption_rate dt : ℝ) : Cell :=
  let consumption := consumption_rate * dt
  let c1 : Cell :=
    { c with dynamic := { c.dynamic with
        fuel_load := max 0 (c.dynamic.fuel_load - consumption),
        burn_time := c.dynamic.burn_time + dt } }
  if c1.dynamic.fuel_load ≤ 0 then c1.burn_out else c1

/-- Engine parameter bundle: the fields of `FireEngine.__init__`
(`src/core/fire_engine.py`), with the `config.get` defaults. -/
structure FireConfig where
  R0 : ℝ := 0.5
  Ks : ℝ := 1.2
  slope_factor_a : ℝ := 0.3
  max_slope_deg : ℝ := 55
  wind_speed_factor_c : ℝ := 0.4
  wind_speed_power_d : ℝ := 1.5
  wind_direction_factor_k : ℝ := 3
  moisture_factor_b : ℝ := 8
  evaporation_coefficient : ℝ := 0.001
  wind_vector : ℝ × ℝ × ℝ := (0, 0, 0)
  crown_fire_multiplier : ℝ := 3
  critical_fire_intensity : ℝ := 500
  energy_transfer_multiplier : ℝ := 1
  min_energy_transfer : ℝ := 0
  base_ignition_energy : ℝ := 100
  ignition_moisture_factor : ℝ := 2

/-- Dot product of 3-vectors (`np.dot`). -/
def dot3 (a b : ℝ × ℝ × ℝ) : ℝ :=
  a.1 * b.1 + a.2.1 * b.2.1 + a.2.2 * b.2.2

/-- Euclidean norm of a 3-vector (`np.linalg.norm`). -/
def norm3 (a : ℝ × ℝ × ℝ) : ℝ :=
  Real.sqrt (dot3 a a)

/-- Componentwise subtraction of 3-vectors. -/
def sub3 (a b : ℝ × ℝ × ℝ) : ℝ × ℝ × ℝ :=
  (a.1 - b.1, a.2.1 - b.2.1, a.2.2 - b.2.2)

/-- Scalar multiple of a 3-vector. -/
def smul3 (t : ℝ) (a : ℝ × ℝ × ℝ) : ℝ × ℝ × ℝ :=
  (t * a.1, t * a.2.1, t * a.2.2)

namespace FireEngine

/-- Slope effect factor (`FireEngine.slope_effect`): exponential in the
slope clamped in magnitude to `max_slope_deg`, with the sign preserved. -/
def slope_effect (e : FireConfig) (slope_rad : ℝ) : ℝ :=
  let slope_deg := |slope_rad| * 180 / Real.pi
  let slope_deg := if slope_deg > e.max_slope_deg then e.max_slope_deg else slope_deg
  let slope_rad_limited := slope_deg * Real.pi / 180
  let slope_rad_limited := if slope_rad < 0 then -slope_rad_limited else slope_rad_limited
  Real.exp (e.slope_factor_a * slope_rad_limited)

/-- Wind-slope coupling factor (`FireEngine.wind_effect`). -/
def wind_effect (e : FireConfig) (spread_vector : ℝ × ℝ × ℝ)
    (local_slope slope_aspect : ℝ) (enable_wind : Bool) : ℝ :=
  if enable_wind = false then 1
  else
    let wind_speed := norm3 e.wind_vector
    if wind_speed = 0 then 1
    else
      let surface_normal : ℝ × ℝ × ℝ :=
        if |local_slope| < 1e-6 then (0, 0, 1)
        else (-(Real.sin slope_aspect) * Real.sin local_slope,
              -(Real.cos slope_aspect) * Real.sin local_slope,
              Real.cos local_slope)
      let wind_dot_normal := dot3 e.wind_vector surface_normal
      let wind_projected := sub3 e.wind_vector (smul3 wind_dot_normal surface_normal)
      let wind_proj_speed := norm3 wind_projected
      if wind_proj_speed < 1e-6 then 1
      else
        let spread_speed := norm3 spread_vector
        if spread_speed = 0 then 1
        else
          let cos_alpha := dot3 wind_projected spread_vector / (wind_proj_speed * spread_speed)
          let cos_alpha := max (-1) (min 1 cos_alpha)
          let speed_effect :=
            1 + e.wind_speed_factor_c * Real.rpow wind_proj_speed e.wind_speed_power_d
          let direction_effect := Real.exp (e.wind_direction_factor_k * (cos_alpha - 1))
          speed_effect * direction_effect

/-- Moisture suppression factor (`FireEngine.moisture_effect`). -/
def moisture_effect (e : FireConfig) (moisture_content : ℝ) : ℝ :=
  Real.exp (-e.moisture_factor_b * moisture_content)

/-- Terrain-boundary test (`FireEngine._cells_cross_terrain_boundary`):
the boundary distance is the literal constant 4000 in the source,
independent of any terrain-generation parameter. -/
def cells_cross_terrain_boundary (from_cell to_cell : Cell) : Prop :=
  let intersection_distance : ℝ := 4000
  ¬((from_cell.static.position.2.1 ≤ intersection_distance) ↔
    (to_cell.static.position.2.1 ≤ intersection_distance))

/-- Local slope of the spread direction, as computed inside
`FireEngine.calculate_spread_rate`. -/
def local_slope_of (from_cell to_cell : Cell) : ℝ :=
  let spread_vector := sub3 to_cell.static.position from_cell.static.position
  let horizontal_dist := Real.sqrt (spread_vector.1 ^ 2 + spread_vector.2.1 ^ 2)
  if horizontal_dist = 0 then 0
  else Real.arctan (spread_vector.2.2 / horizontal_dist)

/-- Unified spread rate (`FireEngine.calculate_spread_rate`). -/
def calculate_spread_rate (e : FireConfig) (from_cell to_cell : Cell)
    (enable_wind : Bool) : ℝ :=
  let spread_vector := sub3 to_cell.static.position from_cell.static.position
  let local_slope := local_slope_of from_cell to_cell
  let terrain_slope :=
    if cells_cross_terrain_boundary from_cell to_cell
    then to_cell.static.slope else from_cell.static.slope
  let terrain_aspect :=
    if cells_cross_terrain_boundary from_cell to_cell
    then to_cell.static.aspect else from_cell.static.aspect
  let slope_factor := slope_effect e local_slope
  let wind_factor := wind_effect e spread_vector terrain_slope terrain_aspect enable_wind
  let moisture_factor := moisture_effect e to_cell.dynamic.moisture_content
  max 0 (e.R0 * wind_factor * e.Ks * moisture_factor * slope_factor)

/-- Energy transfer increment (`FireEngine.calculate_energy_transfer`). -/
def calculate_energy_transfer (e : FireConfig) (from_cell to_cell : Cell)
    (dt : ℝ) (enable_wind : Bool) : ℝ :=
  if from_cell.dynamic.state ≠ CellState.SURFACE_FIRE ∧
     from_cell.dynamic.state ≠ CellState.CROWN_FIRE then 0
  else
    let distance := from_cell.distance_to to_cell
    if distance = 0 then 0
    else
      let spread_rate := calculate_spread_rate e from_cell to_cell enable_wind
      let energy_coefficient := from_cell.dynamic.fuel_load * from_cell.static.heat_content / 1000
      let heat_flux := energy_coefficient * spread_rate
      let distance_factor := max 1 distance
      let energy_transfer := heat_flux / distance_factor * dt
      let energy_transfer := energy_transfer * e.energy_transfer_multiplier
      max energy_transfer (e.min_energy_transfer * dt)

/-- Arena lookup: Python object dereference becomes index lookup. -/
def cellAt (cells : List Cell) (i : ℕ) : Cell :=
  (cells[i]?).getD default

/-- Fire-line intensity (`FireEngine.calculate_fire_line_intensity`): mean
spread rate toward still-unburned neighbours times heat content and fuel
load, divided by 1000. -/
def calculate_fire_line_intensity (e : FireConfig) (cells : List Cell) (c : Cell) : ℝ :=
  if c.dynamic.state ≠ CellState.SURFACE_FIRE then 0
  else
    let acc := c.neighbors.foldl
      (fun (p : ℝ × ℕ) ni =>
        let neighbor := cellAt cells ni
        if neighbor.dynamic.state = CellState.UNBURNED then
          (p.1 + calculate_spread_rate e c neighbor true, p.2 + 1)
        else p)
      (0, 0)
    if acc.2 = 0 then 0
    else c.static.heat_content * (acc.1 / (acc.2 : ℝ)) * c.dynamic.fuel_load / 1000

/-- Van-Wagner critical fire-line intensity used by
`FireEngine.can_crown_fire_initiate`. -/
def critical_intensity (c : Cell) : ℝ :=
  let cbh := c.static.canopy_base_height
  let fmc := c.dynamic.moisture_content * 100
  Real.rpow (0.01 * cbh * (460 + 26 * fmc)) 1.5

/-- Crown-fire initiation test (`FireEngine.can_crown_fire_initiate`). -/
def can_crown_fire_initiate (e : FireConfig) (cells : List Cell) (surface_cell : Cell) : Prop :=
  critical_intensity surface_cell < calculate_fire_line_intensity e cells surface_cell

/-- Pre-heating moisture feedback (`FireEngine.update_moisture_from_heat`). -/
def update_moisture_from_heat (e : FireConfig) (c : Cell) (energy_received : ℝ) : Cell :=
  if 0 < energy_received then
    c.update_moisture (-(energy_received * e.evaporation_coefficient))
  else c

end FireEngine

/-- One record of the periodic `stats_history` (a stats copy plus the
burning-worklist sizes). -/
structure HistoryRecord where
  time : ℝ
  burned_area : ℝ
  fire_perimeter : ℝ
  max_fire_intensity : ℝ
  total_fuel_consumed : ℝ
  burning_surface_count : ℕ
  burning_canopy_count : ℕ

/-- State of the simulation stepper (`CellularAutomaton.__init__`):
engine parameters, clock, the cell arena, the two populations and two
burning worklists (as arena indices), statistics, histories, and the
feature toggles, with the `config.get` defaults. -/
structure Automaton where
  cfg : FireConfig := {}
  dt : ℝ := 1
  max_simulation_time : ℝ := 4320
  cell_size : ℝ := 10
  current_time : ℝ := 0
  cells : List Cell := []
  surface_cells : List ℕ := []
  canopy_cells : List ℕ := []
  burning_surface_cells : List ℕ := []
  burning_canopy_cells : List ℕ := []
  stats_burned_area : ℝ := 0
  stats_fire_perimeter : ℝ := 0
  stats_max_fire_intensity : ℝ := 0
  stats_total_fuel_consumed : ℝ := 0
  fire_history : List (ℝ × List (ℝ × ℝ × ℝ)) := []
  stats_history : List HistoryRecord := []
  spotting_probability : ℝ := 0.1
  max_spotting_distance : ℝ := 500
  fuel_consumption_rate : ℝ := 0.1
  initial_fuel_load : ℝ := 2
  enable_wind_effects : Bool := false
  enable_crown_fire : Bool := true
  enable_spotting : Bool := true
  enable_dynamic_moisture : Bool := true

/-- Association-list lookup mirroring Python `dict` read access keyed by
cell id (`energy_updates[cell_id]`). -/
def lookupEnergy : List (ℕ × ℝ) → ℕ → Option ℝ
  | [], _ => none
  | p :: m, k => if p.1 = k then some p.2 else lookupEnergy m k

/-- Accumulation into the per-step energy map: mirrors
`if id not in energy_updates: energy_updates[id] = 0` followed by
`energy_updates[id] += delta` (in-place update of an existing key,
insertion-order append of a fresh key, exactly like a Python dict). -/
def addEnergy : List (ℕ × ℝ) → ℕ → ℝ → List (ℕ × ℝ)
  | [], k, v => [(k, v)]
  | p :: m, k, v => if p.1 = k then (p.1, p.2 + v) :: m else p :: addEnergy m k v

namespace Automaton

open FireEngine

/-- Map-building loop of `_energy_transfer_step` for one burning worklist:
for each burning cell, for each UNBURNED neighbour, accumulate the engine's
transfer into the id-keyed map. -/
def energySources (A : Automaton) (sources : List ℕ) (m : List (ℕ × ℝ)) : List (ℕ × ℝ) :=
  sources.foldl
    (fun m bi =>
      (cellAt A.cells bi).neighbors.foldl
        (fun m ni =>
          let neighbor := cellAt A.cells ni
          if neighbor.dynamic.state = CellState.UNBURNED then
            addEnergy m neighbor.static.id
              (calculate_energy_transfer A.cfg (cellAt A.cells bi) neighbor A.dt
                A.enable_wind_effects)
          else m)
        m)
    m

/-- The complete per-step energy map: surface worklist first, then canopy,
exactly as in `_energy_transfer_step`. -/
def energyUpdates (A : Automaton) : List (ℕ × ℝ) :=
  energySources A A.burning_canopy_cells (energySources A A.burning_surface_cells [])

/-- Application loop of `_energy_transfer_step`: walk
`surface_cells + canopy_cells`; every cell whose id is a key of the map
receives `update_energy` and then the moisture feedback, both with the
accumulated per-step total. -/
def applyEnergyUpdates (cfg : FireConfig) (cells : List Cell) (pop : List ℕ)
    (m : List (ℕ × ℝ)) : List Cell :=
  pop.foldl
    (fun cs i =>
      let c := cellAt cs i
      match lookupEnergy m c.static.id with
      | some er => cs.set i (update_moisture_from_heat cfg (c.update_energy er) er)
      | none => cs)
    cells

/-- Stage 1 of `step`: `CellularAutomaton._energy_transfer_step`. -/
def energy_transfer_step (A : Automaton) : Automaton :=
  { A with cells := applyEnergyUpdates A.cfg A.cells (A.surface_cells ++ A.canopy_cells)
                      (energyUpdates A) }

/-- Scan one population for `can_ignite` cells, igniting them with the
given fire type and collecting the newly ignited indices in order. -/
def ignitionScan (cells : List Cell) (pop : List ℕ) (fire_type : CellState) :
    List Cell × List ℕ :=
  pop.foldl
    (fun (p : List Cell × List ℕ) i =>
      let c := cellAt p.1 i
      if c.can_ignite then (p.1.set i (c.ignite fire_type), p.2 ++ [i])
      else p)
    (cells, [])

/-- Stage 2 of `step`: `CellularAutomaton._ignition_step` (surface scan,
then canopy scan, then extend both worklists). -/
def ignition_step (A : Automaton) : Automaton :=
  let s := ignitionScan A.cells A.surface_cells CellState.SURFACE_FIRE
  let t := ignitionScan s.1 A.canopy_cells CellState.CROWN_FIRE
  { A with cells := t.1,
           burning_surface_cells := A.burning_surface_cells ++ s.2,
           burning_canopy_cells := A.burning_canopy_cells ++ t.2 }

/-- One worklist pass of `_fuel_consumption_step`: consume fuel for every
worklist entry, collect the entries observed BURNED_OUT, then delete them
from the worklist with first-occurrence removal (`list.remove`). -/
def fuelPass (cells : List Cell) (worklist : List ℕ) (rate dt : ℝ) :
    List Cell × List ℕ :=
  let r := worklist.foldl
    (fun (p : List Cell × List ℕ) i =>
      let c := (cellAt p.1 i).consume_fuel rate dt
      if c.dynamic.state = CellState.BURNED_OUT then (p.1.set i c, p.2 ++ [i])
      else (p.1.set i c, p.2))
    (cells, [])
  (r.1, r.2.foldl (fun wl i => wl.erase i) worklist)

/-- Stage 3 of `step`: `CellularAutomaton._fuel_consumption_step`
(surface at the configured rate, canopy at twice that rate). -/
def fuel_consumption_step (A : Automaton) : Automaton :=
  let s := fuelPass A.cells A.burning_surface_cells A.fuel_consumption_rate A.dt
  let t := fuelPass s.1 A.burning_canopy_cells (A.fuel_consumption_rate * 2) A.dt
  { A with cells := t.1, burning_surface_cells := s.2, burning_canopy_cells := t.2 }

/-- First index of the list satisfying the predicate, mirroring a Python
`for` loop with an early `return`. -/
def findFirstIdx (p : ℕ → Prop) : List ℕ → Option ℕ
  | [] => none
  | i :: rest => if p i then some i else findFirstIdx p rest

/-- Canopy cell at (approximately) the same horizontal position
(`CellularAutomaton._find_corresponding_canopy_cell`). -/
def find_corresponding_canopy_cell (cells : List Cell) (canopy : List ℕ)
    (surface_cell : Cell) : Option ℕ :=
  findFirstIdx
    (fun ci =>
      |(cellAt cells ci).static.position.1 - surface_cell.static.position.1| < 1 ∧
      |(cellAt cells ci).static.position.2.1 - surface_cell.static.position.2.1| < 1)
    canopy

/-- Stage 4 of `step`: `CellularAutomaton._crown_fire_transition_step`. -/
def crown_fire_transition_step (A : Automaton) : Automaton :=
  let r := A.burning_surface_cells.foldl
    (fun (p : List Cell × List ℕ) si =>
      let surface_cell := cellAt p.1 si
      if can_crown_fire_initiate A.cfg p.1 surface_cell then
        match find_corresponding_canopy_cell p.1 A.canopy_cells surface_cell with
        | some ci =>
          if (cellAt p.1 ci).dynamic.state = CellState.UNBURNED then
            (p.1.set ci ((cellAt p.1 ci).ignite CellState.CROWN_FIRE), p.2 ++ [ci])
          else p
        | none => p
      else p)
    (A.cells, [])
  { A with cells := r.1, burning_canopy_cells := A.burning_canopy_cells ++ r.2 }

/-- Two-argument arctangent (`np.arctan2`). -/
def atan2 (y x : ℝ) : ℝ :=
  if 0 < x then Real.arctan (y / x)
  else if x < 0 then
    (if 0 ≤ y then Real.arctan (y / x) + Real.pi else Real.arctan (y / x) - Real.pi)
  else (if 0 < y then Real.pi / 2 else if y < 0 then -(Real.pi / 2) else 0)

/-- Ember landing point (`CellularAutomaton._calculate_spot_fire_position`);
`direction_variation` is the `random.uniform(-pi/6, pi/6)` draw, supplied
by the oracle. -/
def calculate_spot_fire_position (A : Automaton) (crown_cell : Cell)
    (direction_variation : ℝ) : Option (ℝ × ℝ) :=
  let wind_vector := A.cfg.wind_vector
  let wind_speed := norm3 wind_vector
  if wind_speed = 0 then none
  else
    let spot_distance := min (wind_speed * 50) A.max_spotting_distance
    let wind_direction := atan2 wind_vector.2.1 wind_vector.1
    let spot_direction := wind_direction + direction_variation
    some (crown_cell.static.position.1 + spot_distance * Real.cos spot_direction,
          crown_cell.static.position.2.1 + spot_distance * Real.sin spot_direction)

/-- Nearest UNBURNED surface cell within 50 units of a 2D point
(`CellularAutomaton._find_nearest_unburned_surface_cell`). -/
def find_nearest_unburned_surface_cell (cells : List Cell) (surface : List ℕ)
    (position : ℝ × ℝ) : Option ℕ :=
  let r := surface.foldl
    (fun (best : Option (ℕ × ℝ)) i =>
      let c := cellAt cells i
      if c.dynamic.state = CellState.UNBURNED then
        let d := Real.sqrt ((c.static.position.1 - position.1) ^ 2 +
                            (c.static.position.2.1 - position.2) ^ 2)
        match best with
        | none => some (i, d)
        | some b => if d < b.2 then some (i, d) else some b
      else best)
    none
  match r with
  | some b => if b.2 ≤ 50 then some b.1 else none
  | none => none

/-- Stage 5 of `step`: `CellularAutomaton._spotting_step`; `rng k` supplies
the `(random.random(), random.uniform(-pi/6, pi/6))` draws of the k-th
iteration over the burning canopy worklist. -/
def spotting_step (A : Automaton) (rng : ℕ → ℝ × ℝ) : Automaton :=
  let r := A.burning_canopy_cells.enum.foldl
    (fun (p : List Cell × List ℕ) ki =>
      let draws := rng ki.1
      if draws.1 < A.spotting_probability then
        let crown_cell := cellAt p.1 ki.2
        match calculate_spot_fire_position A crown_cell draws.2 with
        | some spot_position =>
          match find_nearest_unburned_surface_cell p.1 A.surface_cells spot_position with
          | some ti =>
            (p.1.set ti ((cellAt p.1 ti).ignite CellState.SURFACE_FIRE), p.2 ++ [ti])
          | none => p
        | none => p
      else p)
    (A.cells, [])
  { A with cells := r.1, burning_surface_cells := A.burning_surface_cells ++ r.2 }

/-- Membership test used twice by `_update_statistics`:
`state in [SURFACE_FIRE, BURNED_OUT]`. -/
def burnedOrBurning (cells : List Cell) (i : ℕ) : Bool :=
  decide ((cellAt cells i).dynamic.state = CellState.SURFACE_FIRE ∨
          (cellAt cells i).dynamic.state = CellState.BURNED_OUT)

/-- Stage 7 of `step`: `CellularAutomaton._update_statistics`. -/
def update_statistics (A : Automaton) : Automaton :=
  let burned_count := (A.surface_cells.filter (burnedOrBurning A.cells)).length
  let cell_area := A.cell_size ^ 2
  let total_consumed :=
    ((A.surface_cells.filter (burnedOrBurning A.cells)).map
      (fun i => A.initial_fuel_load - (cellAt A.cells i).dynamic.fuel_load)).sum
  let max_intensity := A.burning_surface_cells.foldl
    (fun m i => max m (calculate_fire_line_intensity A.cfg A.cells (cellAt A.cells i)))
    0
  { A with stats_burned_area := (burned_count : ℝ) * cell_area,
           stats_total_fuel_consumed := total_consumed * cell_area,
           stats_max_fire_intensity := max_intensity }

/-- Python `int()` truncation toward zero. -/
def pyInt (x : ℝ) : ℤ :=
  if 0 ≤ x then ⌊x⌋ else ⌈x⌉

/-- Stage 8 of `step`: `CellularAutomaton._record_history` (a snapshot once
per simulated hour, keyed on `int(current_time) % 60 == 0`). -/
def record_history (A : Automaton) : Automaton :=
  if pyInt A.current_time % 60 = 0 then
    { A with stats_history := A.stats_history ++
        [{ time := A.current_time,
           burned_area := A.stats_burned_area,
           fire_perimeter := A.stats_fire_perimeter,
           max_fire_intensity := A.stats_max_fire_intensity,
           total_fuel_consumed := A.stats_total_fuel_consumed,
           burning_surface_count := A.burning_surface_cells.length,
           burning_canopy_count := A.burning_canopy_cells.length }] }
  else A

/-- One simulation step (`CellularAutomaton.step`): the fixed pipeline of
energy transfer, ignition, fuel consumption, optional crown-fire
transition, optional spotting, clock advance, statistics, history. -/
def step (A : Automaton) (rng : ℕ → ℝ × ℝ) : Automaton :=
  let A1 := energy_transfer_step A
  let A2 := ignition_step A1
  let A3 := fuel_consumption_step A2
  let A4 := if A3.enable_crown_fire then crown_fire_transition_step A3 else A3
  let A5 := if A4.enable_spotting then spotting_step A4 rng else A4
  let A6 := { A5 with current_time := A5.current_time + A5.dt }
  let A7 := update_statistics A6
  record_history A7

end Automaton

namespace TerrainGenerator

open FireEngine

/-- Ignition seeding (`TerrainGenerator.set_ignition_point`): validates the
arity of the position tuple first — raising `ValueError` (modelled as
`Except.error`) before any cell is touched — then ignites every cell of
the given collection within `radius` of the point and returns them. -/
def set_ignition_point (cells : List Cell) (idxs : List ℕ) (position : List ℝ)
    (radius : ℝ) : Except String (List Cell × List ℕ) :=
  if position.length = 2 ∨ position.length = 3 then
    let use_z := position.length = 3
    let target_x := position.getD 0 0
    let target_y := position.getD 1 0
    let target_z := position.getD 2 0
    Except.ok (idxs.foldl
      (fun (p : List Cell × List ℕ) i =>
        let c := cellAt p.1 i
        let distance :=
          if use_z then
            Real.sqrt ((c.static.position.1 - target_x) ^ 2 +
                       (c.static.position.2.1 - target_y) ^ 2 +
                       (c.static.position.2.2 - target_z) ^ 2)
          else
            Real.sqrt ((c.static.position.1 - target_x) ^ 2 +
                       (c.static.position.2.1 - target_y) ^ 2)
        if distance ≤ radius then (p.1.set i (c.ignite CellState.SURFACE_FIRE), p.2 ++ [i])
        else p)
      (cells, []))
  else Except.error "position must be (x, y) or (x, y, z)"

end TerrainGenerator

namespace Automaton

open FireEngine

/-- Seeding at automaton level (`CellularAutomaton.set_ignition_point`):
delegate to the terrain generator over the surface population, extend the
surface worklist with the ignited cells, and log the ignition points. -/
def set_ignition_point (A : Automaton) (position : List ℝ) (radius : ℝ) :
    Except String Automaton :=
  match TerrainGenerator.set_ignition_point A.cells A.surface_cells position radius with
  | Except.error e => Except.error e
  | Except.ok r =>
    Except.ok
      { A with
        cells := r.1,
        burning_surface_cells := A.burning_surface_cells ++ r.2,
        fire_history := A.fire_history ++
          [(A.current_time, r.2.map (fun i => (cellAt r.1 i).static.position))] }

/-- Fuelled loop body of `run_simulation`: while the clock is before the
end time, step; stop early as soon as both burning worklists are empty.
`rngs k` is the oracle for the k-th executed step. -/
def runAux (endTime : ℝ) (rngs : ℕ → ℕ → ℝ × ℝ) : ℕ → ℕ → Automaton → Automaton
  | 0, _, A => A
  | fuel + 1, k, A =>
    if A.current_time < endTime then
      let A1 := step A (rngs k)
      if A1.burning_surface_cells.length = 0 ∧ A1.burning_canopy_cells.length = 0 then A1
      else runAux endTime rngs fuel (k + 1) A1
    else A

/-- Full run (`CellularAutomaton.run_simulation`). Each executed loop
iteration advances the clock by `dt`, so for `dt > 0` the fuel
`⌈(end − t)/dt⌉ + 1` strictly exceeds the number of Python iterations and
the model agrees with the source loop; for `dt ≤ 0` the Python loop would
not terminate unless the early-exit break fires. -/
def run_simulation (A : Automaton) (end_time : Option ℝ) (rngs : ℕ → ℕ → ℝ × ℝ) :
    Automaton :=
  let e := end_time.getD A.max_simulation_time
  runAux e rngs (⌈(e - A.current_time) / A.dt⌉₊ + 1) 0 A

end Automaton

/-- Public operations a driver can interleave: `step()` calls and ignition
seeding via `set_ignition_point` (a raised `ValueError` leaves the
automaton unchanged). -/
inductive SimOp where
  | doStep (rng : ℕ → ℝ × ℝ)
  | seed (position : List ℝ) (radius : ℝ)

/-- Apply one public operation. -/
def applyOp (A : Automaton) : SimOp → Automaton
  | SimOp.doStep rng => A.step rng
  | SimOp.seed position radius =>
    match A.set_ignition_point position radius with
    | Except.ok A1 => A1
    | Except.error _ => A

/-- Apply a sequence of public operations in order. -/
def applyOps (A : Automaton) (ops : List SimOp) : Automaton :=
  ops.foldl applyOp A

/-- Iterated `step` with a per-step oracle stream. -/
def stepN (A : Automaton) (rngs : ℕ → ℕ → ℝ × ℝ) : ℕ → Automaton
  | 0 => A
  | k + 1 => (stepN A rngs k).step (rngs k)

/-- Convenience accessor for the fire state stored at an arena index. -/
def stateAt (cells : List Cell) (i : ℕ) : CellState :=
  (FireEngine.cellAt cells i).dynamic.state

/-- Edges of the legal fire-state transition graph
UNBURNED → SURFACE_FIRE | CROWN_FIRE → BURNED_OUT.
There is deliberately no edge out of BURNED_OUT and no direct
UNBURNED → BURNED_OUT edge. -/
inductive FireEdge : CellState → CellState → Prop where
  | surface : FireEdge CellState.UNBURNED CellState.SURFACE_FIRE
  | crown : FireEdge CellState.UNBURNED CellState.CROWN_FIRE
  | surface_out : FireEdge CellState.SURFACE_FIRE CellState.BURNED_OUT
  | crown_out : FireEdge CellState.CROWN_FIRE CellState.BURNED_OUT

/-- A (possibly empty) path in the fire-state transition graph. -/
def FirePath : CellState → CellState → Prop :=
  Relation.ReflTransGen FireEdge

/-- Pointwise one-edge evolution of an arena: every cell keeps its state or
moves along exactly one edge of the transition graph. -/
def EdgeStep (cs0 cs1 : List Cell) : Prop :=
  ∀ j, stateAt cs1 j = stateAt cs0 j ∨ FireEdge (stateAt cs0 j) (stateAt cs1 j)

/-- The atomic mutating stages of the stepper pipeline: the five stages of
`step()` plus ignition seeding.  The clock/statistics/history stages do
not touch any cell and are left out. -/
inductive AtomicPhase where
  | energy
  | ignition
  | fuel
  | crown
  | spot (rng : ℕ → ℝ × ℝ)
  | seedFire (position : List ℝ) (radius : ℝ)

/-- Apply one atomic pipeline stage. -/
def applyAtomic (A : Automaton) : AtomicPhase → Automaton
  | AtomicPhase.energy => A.energy_transfer_step
  | AtomicPhase.ignition => A.ignition_step
  | AtomicPhase.fuel => A.fuel_consumption_step
  | AtomicPhase.crown => A.crown_fire_transition_step
  | AtomicPhase.spot rng => A.spotting_step rng
  | AtomicPhase.seedFire position radius =>
    match A.set_ignition_point position radius with
    | Except.ok A1 => A1
    | Except.error _ => A

/-- Worklist well-formedness: every in-range index held by a burning
worklist refers to a cell that is not UNBURNED.  This holds for every
state reachable from a freshly built terrain (worklists start empty and
every entry is appended at a moment its cell is on fire or burned out). -/
def WfWorklists (A : Automaton) : Prop :=
  ∀ i ∈ A.burning_surface_cells ++ A.burning_canopy_cells,
    i < A.cells.length → stateAt A.cells i ≠ CellState.UNBURNED

/-- Pointwise non-negativity of fuel load and moisture content over the
cell population. -/
def NonNegCells (cells : List Cell) : Prop :=
  ∀ j, j < cells.length →
    0 ≤ (FireEngine.cellAt cells j).dynamic.fuel_load ∧
    0 ≤ (FireEngine.cellAt cells j).dynamic.moisture_content

/-- Per-step energy a given cell id receives according to the spec-side
reading of stage 1: the sum, over the cells burning at step start and over
their UNBURNED neighbours carrying this id, of the pairwise transfers. -/
def incomingEnergy (A : Automaton) (cid : ℕ) : ℝ :=
  ((A.burning_surface_cells ++ A.burning_canopy_cells).map
    (fun bi =>
      (((FireEngine.cellAt A.cells bi).neighbors.filter
          (fun ni => decide ((FireEngine.cellAt A.cells ni).dynamic.state = CellState.UNBURNED ∧
                             (FireEngine.cellAt A.cells ni).static.id = cid))).map
        (fun ni => FireEngine.calculate_energy_transfer A.cfg
                     (FireEngine.cellAt A.cells bi) (FireEngine.cellAt A.cells ni)
                     A.dt A.enable_wind_effects)).sum)).sum

/-- A cell id is touched by stage 1 iff some cell burning at step start has
an UNBURNED neighbour with that id (then and only then does the per-step
map carry a key for it). -/
def Heated (A : Automaton) (cid : ℕ) : Prop :=
  ∃ bi ∈ A.burning_surface_cells ++ A.burning_canopy_cells,
    ∃ ni ∈ (FireEngine.cellAt A.cells bi).neighbors,
      (FireEngine.cellAt A.cells ni).dynamic.state = CellState.UNBURNED ∧
      (FireEngine.cellAt A.cells ni).static.id = cid

/-- The empty automaton (all `config.get` defaults, no cells). -/
def emptyAutomaton : Automaton := {}

/-- Oracle stream that never triggers spotting draws below the default
probability threshold is irrelevant here; any fixed stream works. -/
def constRng : ℕ → ℝ × ℝ := fun _ => (1, 0)

/-- Constant per-step oracle stream. -/
def constRngs : ℕ → ℕ → ℝ × ℝ := fun _ => constRng

/-- Burning source cell of the dynamic-moisture scenario: on surface fire
at the origin, one neighbour (index 1), default fuel parameters. -/
def c3Source : Cell :=
  { static := { id := 0, position := (0, 0, 0), slope := 0, aspect := 0,
                layer_type := LayerType.SURFACE },
    dynamic := { state := CellState.SURFACE_FIRE },
    neighbors := [1] }

/-- Target cell of the dynamic-moisture scenario: UNBURNED, 10 units away
on flat ground, moisture content 1. -/
def c3Target : Cell :=
  { static := { id := 1, position := (10, 0, 0), slope := 0, aspect := 0,
                layer_type := LayerType.SURFACE },
    dynamic := { moisture_content := 1 },
    neighbors := [0] }

/-- Scenario for the dynamic-moisture toggle: the toggle is off, one cell
burns next to an UNBURNED neighbour, and the engine guarantees at least
`min_energy_transfer · dt = 5` units of transferred energy. -/
def c3Automaton : Automaton :=
  { cfg := { min_energy_transfer := 5 },
    cells := [c3Source, c3Target],
    surface_cells := [0, 1],
    burning_surface_cells := [0],
    enable_dynamic_moisture := false }

/-- Single burning cell with no neighbours, fuel 2, for the fuel-exhaustion
scenario (consumption rate 1, time step 1: burns out in exactly 2 steps). -/
def c4Cell : Cell :=
  { static := { id := 0, position := (0, 0, 0), slope := 0, aspect := 0,
                layer_type := LayerType.SURFACE },
    dynamic := { state := CellState.SURFACE_FIRE },
    neighbors := [] }

/-- Automaton of the fuel-exhaustion scenario: one burning surface cell,
energy transfer disabled through a zero transfer multiplier and floor. -/
def c4Automaton : Automaton :=
  { cfg := { energy_transfer_multiplier := 0, min_energy_transfer := 0 },
    cells := [c4Cell],
    surface_cells := [0],
    burning_surface_cells := [0],
    fuel_consumption_rate := 1 }

/-- Two-cell automaton for the per-step energy-accumulation scenario:
cell 0 burns and heats its UNBURNED neighbour cell 1. -/
def c6Automaton : Automaton :=
  { cells := [c3Source, c3Target],
    surface_cells := [0, 1],
    burning_surface_cells := [0] }

/-- Flat source cell for the flat-ground spread-rate scenario. -/
def c5Source : Cell :=
  { static := { id := 0, position := (0, 0, 0), slope := 0, aspect := 0,
                layer_type := LayerType.SURFACE },
    dynamic := {} }

/-- Target cell directly above the source: zero horizontal distance, hence
the code assigns local slope 0. -/
def c5Target : Cell :=
  { static := { id := 1, position := (0, 0, 5), slope := 0, aspect := 0,
                layer_type := LayerType.SURFACE },
    dynamic := {} }

/-- Engine configuration with unit base rate and fuel coefficient. -/
def c5Config : FireConfig :=
  { R0 := 1, Ks := 1, max_slope_deg := 1 }

/-- Surface-fire cell with no neighbours and zero canopy base height, for
the fire-line-intensity scenario. -/
def c10Cell : Cell :=
  { static := { id := 0, position := (0, 0, 0), slope := 0, aspect := 0,
                layer_type := LayerType.SURFACE, canopy_base_height := 0 },
    dynamic := { state := CellState.SURFACE_FIRE },
    neighbors := [] }

/-! ## General fold and arena lemmas -/

open FireEngine

open Automaton

theorem foldl_preserves {α β : Type _} (g : β → α → β) (I : β → Prop) :
    ∀ (l : List α) (b : β), I b → (∀ b a, I b → a ∈ l → I (g b a)) →
      I (l.foldl g b) := by
  intro l
  induction l with
  | nil => intro b hb _; exact hb
  | cons x xs ih =>
    intro b hb hstep
    exact ih (g b x) (hstep b x hb (by simp))
      (fun b2 a hb2 ha => hstep b2 a hb2 (by simp [ha]))

theorem cellAt_set (cs : List Cell) (i j : ℕ) (c : Cell) :
    cellAt (cs.set i c) j =
      if i = j ∧ i < cs.length then c else cellAt cs j := by
  unfold cellAt
  rw [List.getElem?_set]
  by_cases h1 : i = j
  · subst h1
    by_cases h2 : i < cs.length
    · simp [h2]
    · simp [h2, List.getElem?_eq_none (show cs.length ≤ i from by omega)]
  · simp [h1]

theorem cellAt_set_ne (cs : List Cell) (i j : ℕ) (c : Cell) (h : i ≠ j) :
    cellAt (cs.set i c) j = cellAt cs j := by
  rw [cellAt_set]; simp [h]

theorem set_cellAt_self (cs : List Cell) (i : ℕ) :
    cs.set i (cellAt cs i) = cs := by
  apply List.ext_getElem?
  intro n
  rw [List.getElem?_set]
  by_cases h1 : i = n
  · by_cases h2 : i < cs.length
    · subst h1
      simp only [h2, if_true]
      unfold cellAt
      rw [List.getElem?_eq_getElem h2]
      rfl
    · subst h1
      simp only [h2, if_true, if_false]
      rw [List.getElem?_eq_none (by omega)]
  · simp [h1]

theorem firePath_burned_out {s : CellState} (h : FirePath CellState.BURNED_OUT s) :
    s = CellState.BURNED_OUT := by
  induction h with
  | refl => rfl
  | tail _ hedge ih => subst ih; cases hedge

/-! ## Per-operation cell lemmas -/

theorem ignite_state (c : Cell) (ft : CellState) :
    (c.ignite ft).dynamic.state =
      if c.dynamic.state = CellState.UNBURNED then ft else c.dynamic.state := by
  by_cases h : c.dynamic.state = CellState.UNBURNED <;> simp [Cell.ignite, h]

theorem ignite_of_not_unburned (c : Cell) (ft : CellState)
    (h : c.dynamic.state ≠ CellState.UNBURNED) : c.ignite ft = c := by
  simp [Cell.ignite, h]

theorem ignite_fuel (c : Cell) (ft : CellState) :
    (c.ignite ft).dynamic.fuel_load = c.dynamic.fuel_load := by
  by_cases h : c.dynamic.state = CellState.UNBURNED <;> simp [Cell.ignite, h]

theorem ignite_moisture (c : Cell) (ft : CellState) :
    (c.ignite ft).dynamic.moisture_content = c.dynamic.moisture_content := by
  by_cases h : c.dynamic.state = CellState.UNBURNED <;> simp [Cell.ignite, h]

theorem ignite_energy (c : Cell) (ft : CellState) :
    (c.ignite ft).dynamic.energy = c.dynamic.energy := by
  by_cases h : c.dynamic.state = CellState.UNBURNED <;> simp [Cell.ignite, h]

theorem ignite_static (c : Cell) (ft : CellState) : (c.ignite ft).static = c.static := by
  by_cases h : c.dynamic.state = CellState.UNBURNED <;> simp [Cell.ignite, h]

theorem consume_state (c : Cell) (r dt : ℝ) :
    (c.consume_fuel r dt).dynamic.state = c.dynamic.state ∨
    (c.consume_fuel r dt).dynamic.state = CellState.BURNED_OUT := by
  simp only [Cell.consume_fuel]
  split
  · right; rfl
  · left; rfl

theorem consume_moisture (c : Cell) (r dt : ℝ) :
    (c.consume_fuel r dt).dynamic.moisture_content = c.dynamic.moisture_content := by
  simp only [Cell.consume_fuel]
  split <;> rfl

theorem consume_energy (c : Cell) (r dt : ℝ) :
    (c.consume_fuel r dt).dynamic.energy = c.dynamic.energy := by
  simp only [Cell.consume_fuel]
  split <;> rfl

theorem consume_fuel_nonneg (c : Cell) (r dt : ℝ) :
    0 ≤ (c.consume_fuel r dt).dynamic.fuel_load := by
  simp only [Cell.consume_fuel, Cell.burn_out]
  split
  · exact le_refl 0
  · exact le_max_left 0 _

theorem consume_static (c : Cell) (r dt : ℝ) : (c.consume_fuel r dt).static = c.static := by
  simp only [Cell.consume_fuel, Cell.burn_out]
  split <;> rfl

theorem update_energy_state (c : Cell) (d : ℝ) :
    (c.update_energy d).dynamic.state = c.dynamic.state := rfl

theorem update_energy_fuel (c : Cell) (d : ℝ) :
    (c.update_energy d).dynamic.fuel_load = c.dynamic.fuel_load := rfl

theorem update_energy_moisture (c : Cell) (d : ℝ) :
    (c.update_energy d).dynamic.moisture_content = c.dynamic.moisture_content := rfl

theorem update_energy_static (c : Cell) (d : ℝ) :
    (c.update_energy d).static = c.static := rfl

theorem update_moisture_nonneg (c : Cell) (d : ℝ) :
    0 ≤ (c.update_moisture d).dynamic.moisture_content := by
  show (0 : ℝ) ≤ max 0 (c.dynamic.moisture_content + d)
  exact le_max_left 0 _

theorem update_moisture_state (c : Cell) (d : ℝ) :
    (c.update_moisture d).dynamic.state = c.dynamic.state := rfl

theorem update_moisture_fuel (c : Cell) (d : ℝ) :
    (c.update_moisture d).dynamic.fuel_load = c.dynamic.fuel_load := rfl

theorem burn_out_fuel (c : Cell) : (c.burn_out).dynamic.fuel_load = 0 := rfl

theorem burn_out_state (c : Cell) : (c.burn_out).dynamic.state = CellState.BURNED_OUT := rfl

theorem umfh_state (e : FireConfig) (c : Cell) (er : ℝ) :
    (update_moisture_from_heat e c er).dynamic.state = c.dynamic.state := by
  unfold update_moisture_from_heat
  split <;> rfl

theorem umfh_fuel (e : FireConfig) (c : Cell) (er : ℝ) :
    (update_moisture_from_heat e c er).dynamic.fuel_load = c.dynamic.fuel_load := by
  unfold update_moisture_from_heat
  split <;> rfl

theorem umfh_energy (e : FireConfig) (c : Cell) (er : ℝ) :
    (update_moisture_from_heat e c er).dynamic.energy = c.dynamic.energy := by
  unfold update_moisture_from_heat
  split <;> rfl

theorem umfh_static (e : FireConfig) (c : Cell) (er : ℝ) :
    (update_moisture_from_heat e c er).static = c.static := by
  unfold update_moisture_from_heat
  split <;> rfl

theorem umfh_moisture (e : FireConfig) (c : Cell) (er : ℝ) :
    (update_moisture_from_heat e c er).dynamic.moisture_content =
      c.dynamic.moisture_content ∨
    0 ≤ (update_moisture_from_heat e c er).dynamic.moisture_content := by
  unfold update_moisture_from_heat
  split
  · right
    show (0 : ℝ) ≤ max 0 _
    exact le_max_left 0 _
  · left; rfl

/-! ## Shape lemmas for the pipeline folds -/

theorem sf_ne_unburned : CellState.SURFACE_FIRE ≠ CellState.UNBURNED := fun h =>
  CellState.noConfusion h

theorem cf_ne_unburned : CellState.CROWN_FIRE ≠ CellState.UNBURNED := fun h =>
  CellState.noConfusion h

theorem erase_foldl_subset (rem : List ℕ) :
    ∀ (l : List ℕ), (rem.foldl (fun wl i => wl.erase i) l) ⊆ l := by
  induction rem with
  | nil => intro l x hx; exact hx
  | cons a rem ih =>
    intro l x hx
    exact List.erase_subset a l (ih (l.erase a) hx)

theorem ignite_fold_spec {α : Type _} (g : (List Cell × List ℕ) → α → (List Cell × List ℕ))
    (cs0 : List Cell) (l : List α)
    (hg : ∀ p a, g p a = p ∨ ∃ i ft,
        (ft = CellState.SURFACE_FIRE ∨ ft = CellState.CROWN_FIRE) ∧
        g p a = (p.1.set i ((cellAt p.1 i).ignite ft), p.2 ++ [i])) :
    (l.foldl g (cs0, [])).1.length = cs0.length ∧
    (∀ j, cellAt (l.foldl g (cs0, [])).1 j = cellAt cs0 j ∨
      ((cellAt cs0 j).dynamic.state = CellState.UNBURNED ∧
       ∃ ft, (ft = CellState.SURFACE_FIRE ∨ ft = CellState.CROWN_FIRE) ∧
         cellAt (l.foldl g (cs0, [])).1 j = (cellAt cs0 j).ignite ft)) ∧
    (∀ j ∈ (l.foldl g (cs0, [])).2, j < cs0.length →
      (cellAt (l.foldl g (cs0, [])).1 j).dynamic.state ≠ CellState.UNBURNED) := by
  refine foldl_preserves g
    (fun p => p.1.length = cs0.length ∧
      (∀ j, cellAt p.1 j = cellAt cs0 j ∨
        ((cellAt cs0 j).dynamic.state = CellState.UNBURNED ∧
         ∃ ft, (ft = CellState.SURFACE_FIRE ∨ ft = CellState.CROWN_FIRE) ∧
           cellAt p.1 j = (cellAt cs0 j).ignite ft)) ∧
      (∀ j ∈ p.2, j < cs0.length →
        (cellAt p.1 j).dynamic.state ≠ CellState.UNBURNED))
    l (cs0, []) ⟨rfl, fun j => Or.inl rfl, by simp⟩ ?_
  intro p a hI _
  rcases hg p a with heq | ⟨i, ft, hft, heq⟩
  · rw [heq]; exact hI
  · obtain ⟨hlen, hpt, hwl⟩ := hI
    rw [heq]
    refine ⟨by simp [hlen], ?_, ?_⟩
    · intro j
      by_cases hij : i = j
      · subst hij
        rw [cellAt_set]
        by_cases hlt : i < p.1.length
        · rw [if_pos ⟨rfl, hlt⟩]
          rcases hpt i with h0 | ⟨hU, ft0, hft0, h0⟩
          · rw [h0]
            by_cases hU : (cellAt cs0 i).dynamic.state = CellState.UNBURNED
            · exact Or.inr ⟨hU, ft, hft, rfl⟩
            · exact Or.inl (ignite_of_not_unburned _ _ hU)
          · have hstate : (cellAt p.1 i).dynamic.state ≠ CellState.UNBURNED := by
              rw [h0, ignite_state, if_pos hU]
              rcases hft0 with h | h
              · rw [h]; exact sf_ne_unburned
              · rw [h]; exact cf_ne_unburned
            rw [ignite_of_not_unburned _ _ hstate, h0]
            exact Or.inr ⟨hU, ft0, hft0, rfl⟩
        · rw [if_neg (fun h => hlt h.2)]
          exact hpt i
      · rw [cellAt_set_ne _ _ _ _ hij]
        exact hpt j
    · intro j hj hjlen
      rcases List.mem_append.mp hj with hj | hj
      · have hold := hwl j hj hjlen
        by_cases hij : i = j
        · subst hij
          rw [cellAt_set]
          by_cases hlt : i < p.1.length
          · rw [if_pos ⟨rfl, hlt⟩, ignite_state, if_neg hold]
            exact hold
          · rw [if_neg (fun h => hlt h.2)]
            exact hold
        · rw [cellAt_set_ne _ _ _ _ hij]
          exact hold
      · have hji : j = i := by simpa using hj
        subst hji
        have hlt : j < p.1.length := by rw [hlen]; exact hjlen
        rw [cellAt_set, if_pos ⟨rfl, hlt⟩, ignite_state]
        by_cases hU : (cellAt p.1 j).dynamic.state = CellState.UNBURNED
        · rw [if_pos hU]
          rcases hft with h | h
          · rw [h]; exact sf_ne_unburned
          · rw [h]; exact cf_ne_unburned
        · rw [if_neg hU]; exact hU

theorem ignite_image_state {c : Cell} {ft : CellState}
    (hft : ft = CellState.SURFACE_FIRE ∨ ft = CellState.CROWN_FIRE)
    (hU : c.dynamic.state = CellState.UNBURNED) :
    ((c.ignite ft).dynamic.state = CellState.SURFACE_FIRE ∨
     (c.ignite ft).dynamic.state = CellState.CROWN_FIRE) := by
  rw [ignite_state, if_pos hU]
  exact hft

theorem consume_fold_spec (cs0 : List Cell) (wl : List ℕ) (rate dt : ℝ) :
    (wl.foldl
      (fun (p : List Cell × List ℕ) i =>
        let c := (cellAt p.1 i).consume_fuel rate dt
        if c.dynamic.state = CellState.BURNED_OUT then (p.1.set i c, p.2 ++ [i])
        else (p.1.set i c, p.2))
      (cs0, [])).1.length = cs0.length ∧
    ∀ j,
      (cellAt (wl.foldl
        (fun (p : List Cell × List ℕ) i =>
          let c := (cellAt p.1 i).consume_fuel rate dt
          if c.dynamic.state = CellState.BURNED_OUT then (p.1.set i c, p.2 ++ [i])
          else (p.1.set i c, p.2))
        (cs0, [])).1 j).dynamic.moisture_content =
          (cellAt cs0 j).dynamic.moisture_content ∧
      (cellAt (wl.foldl
        (fun (p : List Cell × List ℕ) i =>
          let c := (cellAt p.1 i).consume_fuel rate dt
          if c.dynamic.state = CellState.BURNED_OUT then (p.1.set i c, p.2 ++ [i])
          else (p.1.set i c, p.2))
        (cs0, [])).1 j).dynamic.energy = (cellAt cs0 j).dynamic.energy ∧
      (cellAt (wl.foldl
        (fun (p : List Cell × List ℕ) i =>
          let c := (cellAt p.1 i).consume_fuel rate dt
          if c.dynamic.state = CellState.BURNED_OUT then (p.1.set i c, p.2 ++ [i])
          else (p.1.set i c, p.2))
        (cs0, [])).1 j).static = (cellAt cs0 j).static ∧
      (cellAt (wl.foldl
        (fun (p : List Cell × List ℕ) i =>
          let c := (cellAt p.1 i).consume_fuel rate dt
          if c.dynamic.state = CellState.BURNED_OUT then (p.1.set i c, p.2 ++ [i])
          else (p.1.set i c, p.2))
        (cs0, [])).1 j = cellAt cs0 j ∨
        (j ∈ wl ∧
         0 ≤ (cellAt (wl.foldl
           (fun (p : List Cell × List ℕ) i =>
             let c := (cellAt p.1 i).consume_fuel rate dt
             if c.dynamic.state = CellState.BURNED_OUT then (p.1.set i c, p.2 ++ [i])
             else (p.1.set i c, p.2))
           (cs0, [])).1 j).dynamic.fuel_load ∧
         ((cellAt (wl.foldl
           (fun (p : List Cell × List ℕ) i =>
             let c := (cellAt p.1 i).consume_fuel rate dt
             if c.dynamic.state = CellState.BURNED_OUT then (p.1.set i c, p.2 ++ [i])
             else (p.1.set i c, p.2))
           (cs0, [])).1 j).dynamic.state = (cellAt cs0 j).dynamic.state ∨
          (cellAt (wl.foldl
           (fun (p : List Cell × List ℕ) i =>
             let c := (cellAt p.1 i).consume_fuel rate dt
             if c.dynamic.state = CellState.BURNED_OUT then (p.1.set i c, p.2 ++ [i])
             else (p.1.set i c, p.2))
           (cs0, [])).1 j).dynamic.state = CellState.BURNED_OUT))) := by
  refine foldl_preserves _
    (fun p : List Cell × List ℕ => p.1.length = cs0.length ∧
      ∀ j,
        (cellAt p.1 j).dynamic.moisture_content =
          (cellAt cs0 j).dynamic.moisture_content ∧
        (cellAt p.1 j).dynamic.energy = (cellAt cs0 j).dynamic.energy ∧
        (cellAt p.1 j).static = (cellAt cs0 j).static ∧
        (cellAt p.1 j = cellAt cs0 j ∨
          (j ∈ wl ∧ 0 ≤ (cellAt p.1 j).dynamic.fuel_load ∧
           ((cellAt p.1 j).dynamic.state = (cellAt cs0 j).dynamic.state ∨
            (cellAt p.1 j).dynamic.state = CellState.BURNED_OUT))))
    wl (cs0, []) ⟨rfl, fun j => ⟨rfl, rfl, rfl, Or.inl rfl⟩⟩ ?_
  intro p a hI ha
  obtain ⟨hlen, hpt⟩ := hI
  have hcore :
      (p.1.set a ((cellAt p.1 a).consume_fuel rate dt)).length = cs0.length ∧
      ∀ j,
        (cellAt (p.1.set a ((cellAt p.1 a).consume_fuel rate dt)) j).dynamic.moisture_content =
          (cellAt cs0 j).dynamic.moisture_content ∧
        (cellAt (p.1.set a ((cellAt p.1 a).consume_fuel rate dt)) j).dynamic.energy =
          (cellAt cs0 j).dynamic.energy ∧
        (cellAt (p.1.set a ((cellAt p.1 a).consume_fuel rate dt)) j).static =
          (cellAt cs0 j).static ∧
        (cellAt (p.1.set a ((cellAt p.1 a).consume_fuel rate dt)) j = cellAt cs0 j ∨
          (j ∈ wl ∧
           0 ≤ (cellAt (p.1.set a ((cellAt p.1 a).consume_fuel rate dt)) j).dynamic.fuel_load ∧
           ((cellAt (p.1.set a ((cellAt p.1 a).consume_fuel rate dt)) j).dynamic.state =
              (cellAt cs0 j).dynamic.state ∨
            (cellAt (p.1.set a ((cellAt p.1 a).consume_fuel rate dt)) j).dynamic.state =
              CellState.BURNED_OUT))) := by
    refine ⟨by simp [hlen], ?_⟩
    intro j
    by_cases hij : a = j
    · subst hij
      rw [cellAt_set]
      by_cases hlt : a < p.1.length
      · rw [if_pos ⟨rfl, hlt⟩]
        obtain ⟨hm, he, hs, hrest⟩ := hpt a
        refine ⟨by rw [consume_moisture, hm], by rw [consume_energy, he],
                by rw [consume_static, hs], Or.inr ⟨ha, consume_fuel_nonneg _ _ _, ?_⟩⟩
        rcases consume_state (cellAt p.1 a) rate dt with h1 | h1
        · rcases hrest with h2 | ⟨_, _, h2 | h2⟩
          · rw [h1, h2]
            exact Or.inl rfl
          · rw [h1, h2]
            exact Or.inl rfl
          · rw [h1, h2]
            exact Or.inr rfl
        · exact Or.inr h1
      · rw [if_neg (fun h => hlt h.2)]
        exact hpt a
    · rw [cellAt_set_ne _ _ _ _ hij]
      exact hpt j
  dsimp only
  split
  · exact hcore
  · exact hcore

theorem fuelPass_spec (cs0 : List Cell) (wl : List ℕ) (rate dt : ℝ) :
    (fuelPass cs0 wl rate dt).1.length = cs0.length ∧
    (∀ j,
      (cellAt (fuelPass cs0 wl rate dt).1 j).dynamic.moisture_content =
        (cellAt cs0 j).dynamic.moisture_content ∧
      (cellAt (fuelPass cs0 wl rate dt).1 j).dynamic.energy =
        (cellAt cs0 j).dynamic.energy ∧
      (cellAt (fuelPass cs0 wl rate dt).1 j).static = (cellAt cs0 j).static ∧
      (cellAt (fuelPass cs0 wl rate dt).1 j = cellAt cs0 j ∨
        (j ∈ wl ∧ 0 ≤ (cellAt (fuelPass cs0 wl rate dt).1 j).dynamic.fuel_load ∧
         ((cellAt (fuelPass cs0 wl rate dt).1 j).dynamic.state =
            (cellAt cs0 j).dynamic.state ∨
          (cellAt (fuelPass cs0 wl rate dt).1 j).dynamic.state =
            CellState.BURNED_OUT)))) ∧
    (∀ j ∈ (fuelPass cs0 wl rate dt).2, j ∈ wl) := by
  have hsub : ∀ j ∈ (fuelPass cs0 wl rate dt).2, j ∈ wl := by
    intro j hj
    exact erase_foldl_subset _ wl hj
  have main := consume_fold_spec cs0 wl rate dt
  exact ⟨main.1, main.2, hsub⟩

theorem applyEnergy_spec (cfg : FireConfig) (cs0 : List Cell) (pop : List ℕ)
    (m : List (ℕ × ℝ)) :
    (applyEnergyUpdates cfg cs0 pop m).length = cs0.length ∧
    ∀ j,
      (cellAt (applyEnergyUpdates cfg cs0 pop m) j).dynamic.state =
        (cellAt cs0 j).dynamic.state ∧
      (cellAt (applyEnergyUpdates cfg cs0 pop m) j).dynamic.fuel_load =
        (cellAt cs0 j).dynamic.fuel_load ∧
      (cellAt (applyEnergyUpdates cfg cs0 pop m) j).static = (cellAt cs0 j).static ∧
      ((cellAt (applyEnergyUpdates cfg cs0 pop m) j).dynamic.moisture_content =
         (cellAt cs0 j).dynamic.moisture_content ∨
       0 ≤ (cellAt (applyEnergyUpdates cfg cs0 pop m) j).dynamic.moisture_content) := by
  unfold applyEnergyUpdates
  refine foldl_preserves _
    (fun cs => cs.length = cs0.length ∧
      ∀ j,
        (cellAt cs j).dynamic.state = (cellAt cs0 j).dynamic.state ∧
        (cellAt cs j).dynamic.fuel_load = (cellAt cs0 j).dynamic.fuel_load ∧
        (cellAt cs j).static = (cellAt cs0 j).static ∧
        ((cellAt cs j).dynamic.moisture_content =
           (cellAt cs0 j).dynamic.moisture_content ∨
         0 ≤ (cellAt cs j).dynamic.moisture_content))
    pop cs0 ⟨rfl, fun j => ⟨rfl, rfl, rfl, Or.inl rfl⟩⟩ ?_
  intro cs i hI _
  obtain ⟨hlen, hpt⟩ := hI
  dsimp only
  cases hm : lookupEnergy m (cellAt cs i).static.id with
  | none => exact ⟨hlen, hpt⟩
  | some er =>
    refine ⟨by simp [hlen], ?_⟩
    intro j
    by_cases hij : i = j
    · subst hij
      rw [cellAt_set]
      by_cases hlt : i < cs.length
      · rw [if_pos ⟨rfl, hlt⟩]
        obtain ⟨h1, h2, h3, h4⟩ := hpt i
        refine ⟨?_, ?_, ?_, ?_⟩
        · rw [umfh_state, update_energy_state, h1]
        · rw [umfh_fuel, update_energy_fuel, h2]
        · rw [umfh_static, update_energy_static, h3]
        · rcases umfh_moisture cfg ((cellAt cs i).update_energy er) er with h | h
          · rw [h, update_energy_moisture]
            exact h4
          · exact Or.inr h
      · rw [if_neg (fun h => hlt h.2)]
        exact hpt i
    · rw [cellAt_set_ne _ _ _ _ hij]
      exact hpt j


/-! ## EdgeStep helpers -/

theorem cellAt_ge_length (cs : List Cell) (j : ℕ) (h : cs.length ≤ j) :
    cellAt cs j = default := by
  unfold cellAt
  rw [List.getElem?_eq_none h]
  rfl

theorem edgeStep_refl (cs : List Cell) : EdgeStep cs cs := fun _ => Or.inl rfl

theorem fireEdge_ne_unburned {s t : CellState} (h : FireEdge s t) :
    t ≠ CellState.UNBURNED := by
  cases h <;> intro h2 <;> exact CellState.noConfusion h2

theorem edgeStep_no_new_unburned {cs0 cs1 : List Cell} (h : EdgeStep cs0 cs1) (j : ℕ)
    (hU : stateAt cs1 j = CellState.UNBURNED) : stateAt cs0 j = CellState.UNBURNED := by
  rcases h j with h1 | h1
  · rw [← h1]; exact hU
  · exact absurd hU (fireEdge_ne_unburned h1)

theorem edgeStep_fire_path {cs0 cs1 : List Cell} (h : EdgeStep cs0 cs1) (j : ℕ) :
    FirePath (stateAt cs0 j) (stateAt cs1 j) := by
  rcases h j with h1 | h1
  · rw [h1]
    exact Relation.ReflTransGen.refl
  · exact Relation.ReflTransGen.single h1

theorem ignite_pointwise_to_edge {cs0 cs1 : List Cell}
    (h : ∀ j, cellAt cs1 j = cellAt cs0 j ∨
      ((cellAt cs0 j).dynamic.state = CellState.UNBURNED ∧
       ∃ ft, (ft = CellState.SURFACE_FIRE ∨ ft = CellState.CROWN_FIRE) ∧
         cellAt cs1 j = (cellAt cs0 j).ignite ft)) :
    EdgeStep cs0 cs1 := by
  intro j
  rcases h j with h1 | ⟨hU, ft, hft, h1⟩
  · left
    unfold stateAt
    rw [h1]
  · unfold stateAt
    rw [h1, ignite_state, if_pos hU, hU]
    rcases hft with h2 | h2 <;> subst h2
    · exact Or.inr FireEdge.surface
    · exact Or.inr FireEdge.crown

theorem ignite_pointwise_compose {cs0 cs1 cs2 : List Cell}
    (h1 : ∀ j, cellAt cs1 j = cellAt cs0 j ∨
      ((cellAt cs0 j).dynamic.state = CellState.UNBURNED ∧
       ∃ ft, (ft = CellState.SURFACE_FIRE ∨ ft = CellState.CROWN_FIRE) ∧
         cellAt cs1 j = (cellAt cs0 j).ignite ft))
    (h2 : ∀ j, cellAt cs2 j = cellAt cs1 j ∨
      ((cellAt cs1 j).dynamic.state = CellState.UNBURNED ∧
       ∃ ft, (ft = CellState.SURFACE_FIRE ∨ ft = CellState.CROWN_FIRE) ∧
         cellAt cs2 j = (cellAt cs1 j).ignite ft)) :
    ∀ j, cellAt cs2 j = cellAt cs0 j ∨
      ((cellAt cs0 j).dynamic.state = CellState.UNBURNED ∧
       ∃ ft, (ft = CellState.SURFACE_FIRE ∨ ft = CellState.CROWN_FIRE) ∧
         cellAt cs2 j = (cellAt cs0 j).ignite ft) := by
  intro j
  rcases h2 j with g2 | ⟨hU1, ft, hft, g2⟩
  · rcases h1 j with g1 | ⟨hU, ft0, hft0, g1⟩
    · left
      rw [g2, g1]
    · right
      exact ⟨hU, ft0, hft0, by rw [g2, g1]⟩
  · rcases h1 j with g1 | ⟨hU, ft0, hft0, g1⟩
    · right
      refine ⟨by rw [← g1]; exact hU1, ft, hft, by rw [g2, g1]⟩
    · exfalso
      have hne : (cellAt cs1 j).dynamic.state ≠ CellState.UNBURNED := by
        rw [g1, ignite_state, if_pos hU]
        rcases hft0 with h | h <;> subst h
        · exact sf_ne_unburned
        · exact cf_ne_unburned
      exact hne hU1

theorem ignite_pointwise_nonneg {cs0 cs1 : List Cell}
    (hpt : ∀ j, cellAt cs1 j = cellAt cs0 j ∨
      ((cellAt cs0 j).dynamic.state = CellState.UNBURNED ∧
       ∃ ft, (ft = CellState.SURFACE_FIRE ∨ ft = CellState.CROWN_FIRE) ∧
         cellAt cs1 j = (cellAt cs0 j).ignite ft))
    (hlen : cs1.length = cs0.length)
    (h : NonNegCells cs0) : NonNegCells cs1 := by
  intro j hj
  have hj0 : j < cs0.length := by rw [← hlen]; exact hj
  rcases hpt j with h1 | ⟨_, ft, _, h1⟩
  · rw [h1]
    exact h j hj0
  · rw [h1]
    exact ⟨by rw [ignite_fuel]; exact (h j hj0).1,
           by rw [ignite_moisture]; exact (h j hj0).2⟩

theorem ignitionScan_spec (cells : List Cell) (pop : List ℕ) (ft : CellState)
    (hft : ft = CellState.SURFACE_FIRE ∨ ft = CellState.CROWN_FIRE) :
    (ignitionScan cells pop ft).1.length = cells.length ∧
    (∀ j, cellAt (ignitionScan cells pop ft).1 j = cellAt cells j ∨
      ((cellAt cells j).dynamic.state = CellState.UNBURNED ∧
       ∃ ft2, (ft2 = CellState.SURFACE_FIRE ∨ ft2 = CellState.CROWN_FIRE) ∧
         cellAt (ignitionScan cells pop ft).1 j = (cellAt cells j).ignite ft2)) ∧
    (∀ j ∈ (ignitionScan cells pop ft).2, j < cells.length →
      (cellAt (ignitionScan cells pop ft).1 j).dynamic.state ≠ CellState.UNBURNED) := by
  unfold ignitionScan
  exact ignite_fold_spec _ cells pop (fun p a => by
    dsimp only
    split
    · exact Or.inr ⟨a, ft, hft, rfl⟩
    · exact Or.inl rfl)

/-! ## Phase lemmas: energy transfer -/

theorem energy_step_cells (A : Automaton) :
    (A.energy_transfer_step).cells =
      applyEnergyUpdates A.cfg A.cells (A.surface_cells ++ A.canopy_cells)
        (energyUpdates A) := rfl

theorem energy_step_len (A : Automaton) :
    (A.energy_transfer_step).cells.length = A.cells.length := by
  rw [energy_step_cells]
  exact (applyEnergy_spec A.cfg A.cells _ _).1

theorem energy_step_state (A : Automaton) (j : ℕ) :
    stateAt (A.energy_transfer_step).cells j = stateAt A.cells j := by
  unfold stateAt
  rw [energy_step_cells]
  exact ((applyEnergy_spec A.cfg A.cells _ _).2 j).1

theorem energy_step_edge (A : Automaton) :
    EdgeStep A.cells (A.energy_transfer_step).cells :=
  fun j => Or.inl (energy_step_state A j)

theorem energy_step_wf (A : Automaton) (h : WfWorklists A) :
    WfWorklists (A.energy_transfer_step) := by
  intro i hi hlen
  have hlen0 : i < A.cells.length := by rw [← energy_step_len A]; exact hlen
  rw [energy_step_state]
  exact h i hi hlen0

theorem energy_step_nonneg (A : Automaton) (h : NonNegCells A.cells) :
    NonNegCells (A.energy_transfer_step).cells := by
  intro j hj
  have hj0 : j < A.cells.length := by rw [← energy_step_len A]; exact hj
  rw [energy_step_cells]
  obtain ⟨hs, hf, hst, hm⟩ := (applyEnergy_spec A.cfg A.cells
    (A.surface_cells ++ A.canopy_cells) (energyUpdates A)).2 j
  refine ⟨by rw [hf]; exact (h j hj0).1, ?_⟩
  rcases hm with hm | hm
  · rw [hm]; exact (h j hj0).2
  · exact hm

/-! ## Phase lemmas: ignition scan -/

theorem ignition_step_cells (A : Automaton) :
    (A.ignition_step).cells =
      (ignitionScan (ignitionScan A.cells A.surface_cells CellState.SURFACE_FIRE).1
        A.canopy_cells CellState.CROWN_FIRE).1 := rfl

theorem ignition_step_wls (A : Automaton) :
    (A.ignition_step).burning_surface_cells =
      A.burning_surface_cells ++
        (ignitionScan A.cells A.surface_cells CellState.SURFACE_FIRE).2 := rfl

theorem ignition_step_wlc (A : Automaton) :
    (A.ignition_step).burning_canopy_cells =
      A.burning_canopy_cells ++
        (ignitionScan (ignitionScan A.cells A.surface_cells CellState.SURFACE_FIRE).1
          A.canopy_cells CellState.CROWN_FIRE).2 := rfl

theorem ignition_step_pointwise (A : Automaton) :
    ∀ j, cellAt (A.ignition_step).cells j = cellAt A.cells j ∨
      ((cellAt A.cells j).dynamic.state = CellState.UNBURNED ∧
       ∃ ft, (ft = CellState.SURFACE_FIRE ∨ ft = CellState.CROWN_FIRE) ∧
         cellAt (A.ignition_step).cells j = (cellAt A.cells j).ignite ft) := by
  rw [ignition_step_cells]
  exact ignite_pointwise_compose
    (ignitionScan_spec A.cells A.surface_cells _ (Or.inl rfl)).2.1
    (ignitionScan_spec _ A.canopy_cells _ (Or.inr rfl)).2.1

theorem ignition_step_len (A : Automaton) :
    (A.ignition_step).cells.length = A.cells.length := by
  rw [ignition_step_cells,
      (ignitionScan_spec _ A.canopy_cells _ (Or.inr rfl)).1,
      (ignitionScan_spec A.cells A.surface_cells _ (Or.inl rfl)).1]

theorem ignition_step_edge (A : Automaton) :
    EdgeStep A.cells (A.ignition_step).cells :=
  ignite_pointwise_to_edge (ignition_step_pointwise A)

theorem ignition_step_nonneg (A : Automaton) (h : NonNegCells A.cells) :
    NonNegCells (A.ignition_step).cells :=
  ignite_pointwise_nonneg (ignition_step_pointwise A) (ignition_step_len A) h

theorem ignition_step_wf (A : Automaton) (h : WfWorklists A) :
    WfWorklists (A.ignition_step) := by
  intro i hi hlen
  intro hU
  have hlen0 : i < A.cells.length := by rw [← ignition_step_len A]; exact hlen
  have hlen1 : i < (ignitionScan A.cells A.surface_cells CellState.SURFACE_FIRE).1.length := by
    rw [(ignitionScan_spec A.cells A.surface_cells _ (Or.inl rfl)).1]
    exact hlen0
  rw [show (A.ignition_step).cells =
      (ignitionScan (ignitionScan A.cells A.surface_cells CellState.SURFACE_FIRE).1
        A.canopy_cells CellState.CROWN_FIRE).1 from rfl] at hU
  have hUs1 : stateAt (ignitionScan A.cells A.surface_cells CellState.SURFACE_FIRE).1 i =
      CellState.UNBURNED :=
    edgeStep_no_new_unburned
      (ignite_pointwise_to_edge (ignitionScan_spec _ A.canopy_cells _ (Or.inr rfl)).2.1) i hU
  have hU0 : stateAt A.cells i = CellState.UNBURNED :=
    edgeStep_no_new_unburned
      (ignite_pointwise_to_edge
        (ignitionScan_spec A.cells A.surface_cells _ (Or.inl rfl)).2.1) i hUs1
  rw [ignition_step_wls, ignition_step_wlc] at hi
  rcases List.mem_append.mp hi with hi1 | hi2
  · rcases List.mem_append.mp hi1 with hiw | hin
    · exact h i (List.mem_append.mpr (Or.inl hiw)) hlen0 hU0
    · exact (ignitionScan_spec A.cells A.surface_cells _ (Or.inl rfl)).2.2 i hin hlen0 hUs1
  · rcases List.mem_append.mp hi2 with hiw | hin
    · exact h i (List.mem_append.mpr (Or.inr hiw)) hlen0 hU0
    · exact (ignitionScan_spec _ A.canopy_cells _ (Or.inr rfl)).2.2 i hin hlen1 hU

/-! ## Phase lemmas: fuel consumption -/

theorem fireEdge_irrefl {s t : CellState} (h : FireEdge s t) : s ≠ t := by
  cases h <;> intro h2 <;> exact CellState.noConfusion h2

theorem fireEdge_not_from_burned_out {t : CellState}
    (h : FireEdge CellState.BURNED_OUT t) : False := by
  cases h

theorem edgeStep_compose_burnout {cs0 cs1 cs2 : List Cell} (h1 : EdgeStep cs0 cs1)
    (h1out : ∀ j, stateAt cs1 j ≠ stateAt cs0 j →
      stateAt cs1 j = CellState.BURNED_OUT)
    (h2 : EdgeStep cs1 cs2) : EdgeStep cs0 cs2 := by
  intro j
  rcases h2 j with g2 | g2
  · rw [g2]
    exact h1 j
  · rcases h1 j with g1 | g1
    · rw [g1] at g2
      exact Or.inr g2
    · exfalso
      have hne : stateAt cs1 j ≠ stateAt cs0 j := fun h => fireEdge_irrefl g1 h.symm
      rw [h1out j hne] at g2
      exact fireEdge_not_from_burned_out g2

theorem fuelPass_edge (cs0 : List Cell) (wl : List ℕ) (rate dt : ℝ)
    (hwl : ∀ i ∈ wl, i < cs0.length → stateAt cs0 i ≠ CellState.UNBURNED) :
    EdgeStep cs0 (fuelPass cs0 wl rate dt).1 := by
  intro j
  obtain ⟨hm, he, hs, hrest⟩ := (fuelPass_spec cs0 wl rate dt).2.1 j
  rcases hrest with h1 | ⟨hjw, hnn, hst⟩
  · left
    unfold stateAt
    rw [h1]
  · rcases hst with h2 | h2
    · left
      exact h2
    · by_cases hjlen : j < cs0.length
      · have h0 := hwl j hjw hjlen
        cases hcase : stateAt cs0 j with
        | UNBURNED => exact absurd hcase h0
        | SURFACE_FIRE =>
          right
          rw [show stateAt (fuelPass cs0 wl rate dt).1 j =
            CellState.BURNED_OUT from h2]
          exact FireEdge.surface_out
        | CROWN_FIRE =>
          right
          rw [show stateAt (fuelPass cs0 wl rate dt).1 j =
            CellState.BURNED_OUT from h2]
          exact FireEdge.crown_out
        | BURNED_OUT =>
          left
          rw [show stateAt (fuelPass cs0 wl rate dt).1 j =
            CellState.BURNED_OUT from h2]
      · left
        unfold stateAt
        rw [cellAt_ge_length _ _ (by
          rw [(fuelPass_spec cs0 wl rate dt).1]; omega),
          cellAt_ge_length _ _ (by omega)]

theorem fuelPass_out (cs0 : List Cell) (wl : List ℕ) (rate dt : ℝ) :
    ∀ j, stateAt (fuelPass cs0 wl rate dt).1 j ≠ stateAt cs0 j →
      stateAt (fuelPass cs0 wl rate dt).1 j = CellState.BURNED_OUT := by
  intro j hne
  obtain ⟨hm, he, hs, hrest⟩ := (fuelPass_spec cs0 wl rate dt).2.1 j
  rcases hrest with h1 | ⟨_, _, hst⟩
  · exact absurd (by unfold stateAt; rw [h1]) hne
  · rcases hst with h2 | h2
    · exact absurd h2 hne
    · exact h2

theorem fuelPass_nonneg (cs0 : List Cell) (wl : List ℕ) (rate dt : ℝ)
    (h : NonNegCells cs0) : NonNegCells (fuelPass cs0 wl rate dt).1 := by
  intro j hj
  have hj0 : j < cs0.length := by
    rw [← (fuelPass_spec cs0 wl rate dt).1]; exact hj
  obtain ⟨hm, he, hs, hrest⟩ := (fuelPass_spec cs0 wl rate dt).2.1 j
  refine ⟨?_, by rw [hm]; exact (h j hj0).2⟩
  rcases hrest with h1 | ⟨_, hnn, _⟩
  · rw [h1]
    exact (h j hj0).1
  · exact hnn

theorem fuel_step_cells (A : Automaton) :
    (A.fuel_consumption_step).cells =
      (fuelPass (fuelPass A.cells A.burning_surface_cells A.fuel_consumption_rate A.dt).1
        A.burning_canopy_cells (A.fuel_consumption_rate * 2) A.dt).1 := rfl

theorem fuel_step_wls (A : Automaton) :
    (A.fuel_consumption_step).burning_surface_cells =
      (fuelPass A.cells A.burning_surface_cells A.fuel_consumption_rate A.dt).2 := rfl

theorem fuel_step_wlc (A : Automaton) :
    (A.fuel_consumption_step).burning_canopy_cells =
      (fuelPass (fuelPass A.cells A.burning_surface_cells A.fuel_consumption_rate A.dt).1
        A.burning_canopy_cells (A.fuel_consumption_rate * 2) A.dt).2 := rfl

theorem fuel_step_len (A : Automaton) :
    (A.fuel_consumption_step).cells.length = A.cells.length := by
  rw [fuel_step_cells, (fuelPass_spec _ _ _ _).1, (fuelPass_spec _ _ _ _).1]

theorem fuel_step_edge (A : Automaton) (h : WfWorklists A) :
    EdgeStep A.cells (A.fuel_consumption_step).cells := by
  rw [fuel_step_cells]
  have h1 : EdgeStep A.cells
      (fuelPass A.cells A.burning_surface_cells A.fuel_consumption_rate A.dt).1 :=
    fuelPass_edge _ _ _ _ (fun i hi hl =>
      h i (List.mem_append.mpr (Or.inl hi)) hl)
  refine edgeStep_compose_burnout h1 (fuelPass_out _ _ _ _) ?_
  refine fuelPass_edge _ _ _ _ (fun i hi hl => ?_)
  intro hU
  have hl0 : i < A.cells.length := by
    rw [← (fuelPass_spec A.cells A.burning_surface_cells A.fuel_consumption_rate A.dt).1]
    exact hl
  exact h i (List.mem_append.mpr (Or.inr hi)) hl0 (edgeStep_no_new_unburned h1 i hU)

theorem fuel_step_wf (A : Automaton) (h : WfWorklists A) :
    WfWorklists (A.fuel_consumption_step) := by
  intro i hi hlen
  intro hU
  have hlen0 : i < A.cells.length := by rw [← fuel_step_len A]; exact hlen
  have hU0 : stateAt A.cells i = CellState.UNBURNED :=
    edgeStep_no_new_unburned (fuel_step_edge A h) i hU
  rw [fuel_step_wls, fuel_step_wlc] at hi
  rcases List.mem_append.mp hi with hi1 | hi2
  · have hw : i ∈ A.burning_surface_cells := (fuelPass_spec _ _ _ _).2.2 i hi1
    exact h i (List.mem_append.mpr (Or.inl hw)) hlen0 hU0
  · have hw : i ∈ A.burning_canopy_cells := (fuelPass_spec _ _ _ _).2.2 i hi2
    exact h i (List.mem_append.mpr (Or.inr hw)) hlen0 hU0

theorem fuel_step_nonneg (A : Automaton) (h : NonNegCells A.cells) :
    NonNegCells (A.fuel_consumption_step).cells := by
  rw [fuel_step_cells]
  exact fuelPass_nonneg _ _ _ _ (fuelPass_nonneg _ _ _ _ h)

/-! ## Phase lemmas: crown-fire transition, spotting, seeding -/

theorem crown_step_spec (A : Automaton) :
    (A.crown_fire_transition_step).cells.length = A.cells.length ∧
    (∀ j, cellAt (A.crown_fire_transition_step).cells j = cellAt A.cells j ∨
      ((cellAt A.cells j).dynamic.state = CellState.UNBURNED ∧
       ∃ ft, (ft = CellState.SURFACE_FIRE ∨ ft = CellState.CROWN_FIRE) ∧
         cellAt (A.crown_fire_transition_step).cells j = (cellAt A.cells j).ignite ft)) ∧
    (∀ j ∈ (A.crown_fire_transition_step).burning_canopy_cells, j < A.cells.length →
      j ∈ A.burning_canopy_cells ∨
      (cellAt (A.crown_fire_transition_step).cells j).dynamic.state ≠
        CellState.UNBURNED) ∧
    (A.crown_fire_transition_step).burning_surface_cells = A.burning_surface_cells := by
  have hfold := ignite_fold_spec
    (fun (p : List Cell × List ℕ) si =>
      let surface_cell := cellAt p.1 si
      if can_crown_fire_initiate A.cfg p.1 surface_cell then
        match find_corresponding_canopy_cell p.1 A.canopy_cells surface_cell with
        | some ci =>
          if (cellAt p.1 ci).dynamic.state = CellState.UNBURNED then
            (p.1.set ci ((cellAt p.1 ci).ignite CellState.CROWN_FIRE), p.2 ++ [ci])
          else p
        | none => p
      else p)
    A.cells A.burning_surface_cells (by
      intro p a
      dsimp only
      split <;>
        first
          | exact Or.inl rfl
          | (split <;>
              first
                | exact Or.inl rfl
                | (split <;>
                    first
                      | exact Or.inl rfl
                      | exact Or.inr ⟨_, _, Or.inr rfl, rfl⟩)))
  refine ⟨hfold.1, hfold.2.1, ?_, rfl⟩
  intro j hj hjl
  rcases List.mem_append.mp hj with hj | hj
  · exact Or.inl hj
  · exact Or.inr (hfold.2.2 j hj hjl)

theorem spot_step_spec (A : Automaton) (rng : ℕ → ℝ × ℝ) :
    (A.spotting_step rng).cells.length = A.cells.length ∧
    (∀ j, cellAt (A.spotting_step rng).cells j = cellAt A.cells j ∨
      ((cellAt A.cells j).dynamic.state = CellState.UNBURNED ∧
       ∃ ft, (ft = CellState.SURFACE_FIRE ∨ ft = CellState.CROWN_FIRE) ∧
         cellAt (A.spotting_step rng).cells j = (cellAt A.cells j).ignite ft)) ∧
    (∀ j ∈ (A.spotting_step rng).burning_surface_cells, j < A.cells.length →
      j ∈ A.burning_surface_cells ∨
      (cellAt (A.spotting_step rng).cells j).dynamic.state ≠ CellState.UNBURNED) ∧
    (A.spotting_step rng).burning_canopy_cells = A.burning_canopy_cells := by
  have hfold := ignite_fold_spec
    (fun (p : List Cell × List ℕ) ki =>
      let draws := rng ki.1
      if draws.1 < A.spotting_probability then
        let crown_cell := cellAt p.1 ki.2
        match calculate_spot_fire_position A crown_cell draws.2 with
        | some spot_position =>
          match find_nearest_unburned_surface_cell p.1 A.surface_cells spot_position with
          | some ti =>
            (p.1.set ti ((cellAt p.1 ti).ignite CellState.SURFACE_FIRE), p.2 ++ [ti])
          | none => p
        | none => p
      else p)
    A.cells A.burning_canopy_cells.enum (by
      intro p a
      dsimp only
      split <;>
        first
          | exact Or.inl rfl
          | (split <;>
              first
                | exact Or.inl rfl
                | (split <;>
                    first
                      | exact Or.inl rfl
                      | exact Or.inr ⟨_, _, Or.inl rfl, rfl⟩)))
  refine ⟨hfold.1, hfold.2.1, ?_, rfl⟩
  intro j hj hjl
  rcases List.mem_append.mp hj with hj | hj
  · exact Or.inl hj
  · exact Or.inr (hfold.2.2 j hj hjl)

theorem seed_step_spec (A : Automaton) (position : List ℝ) (radius : ℝ) :
    (applyOp A (SimOp.seed position radius)).cells.length = A.cells.length ∧
    (∀ j, cellAt (applyOp A (SimOp.seed position radius)).cells j = cellAt A.cells j ∨
      ((cellAt A.cells j).dynamic.state = CellState.UNBURNED ∧
       ∃ ft, (ft = CellState.SURFACE_FIRE ∨ ft = CellState.CROWN_FIRE) ∧
         cellAt (applyOp A (SimOp.seed position radius)).cells j =
           (cellAt A.cells j).ignite ft)) ∧
    (∀ j ∈ (applyOp A (SimOp.seed position radius)).burning_surface_cells,
      j < A.cells.length →
      j ∈ A.burning_surface_cells ∨
      (cellAt (applyOp A (SimOp.seed position radius)).cells j).dynamic.state ≠
        CellState.UNBURNED) ∧
    (applyOp A (SimOp.seed position radius)).burning_canopy_cells =
      A.burning_canopy_cells := by
  unfold applyOp Automaton.set_ignition_point TerrainGenerator.set_ignition_point
  dsimp only
  by_cases harity : position.length = 2 ∨ position.length = 3
  · rw [if_pos harity]
    dsimp only
    have hfold := ignite_fold_spec
      (fun (p : List Cell × List ℕ) i =>
        let c := cellAt p.1 i
        let distance :=
          if position.length = 3 then
            Real.sqrt ((c.static.position.1 - position.getD 0 0) ^ 2 +
                       (c.static.position.2.1 - position.getD 1 0) ^ 2 +
                       (c.static.position.2.2 - position.getD 2 0) ^ 2)
          else
            Real.sqrt ((c.static.position.1 - position.getD 0 0) ^ 2 +
                       (c.static.position.2.1 - position.getD 1 0) ^ 2)
        if distance ≤ radius then
          (p.1.set i (c.ignite CellState.SURFACE_FIRE), p.2 ++ [i])
        else p)
      A.cells A.surface_cells (by
        intro p a
        dsimp only
        split <;> split <;>
          first
            | exact Or.inr ⟨_, _, Or.inl rfl, rfl⟩
            | exact Or.inl rfl)
    refine ⟨hfold.1, hfold.2.1, ?_, rfl⟩
    intro j hj hjl
    rcases List.mem_append.mp hj with hj | hj
    · exact Or.inl hj
    · exact Or.inr (hfold.2.2 j hj hjl)
  · rw [if_neg harity]
    dsimp only
    exact ⟨rfl, fun j => Or.inl rfl, fun j hj _ => Or.inl hj, rfl⟩

/-! ## Derived phase lemmas and frame lemmas -/

theorem crown_step_edge (A : Automaton) :
    EdgeStep A.cells (A.crown_fire_transition_step).cells :=
  ignite_pointwise_to_edge (crown_step_spec A).2.1

theorem crown_step_nonneg (A : Automaton) (h : NonNegCells A.cells) :
    NonNegCells (A.crown_fire_transition_step).cells :=
  ignite_pointwise_nonneg (crown_step_spec A).2.1 (crown_step_spec A).1 h

theorem crown_step_wf (A : Automaton) (h : WfWorklists A) :
    WfWorklists (A.crown_fire_transition_step) := by
  intro i hi hlen
  intro hU
  have hlen0 : i < A.cells.length := by rw [← (crown_step_spec A).1]; exact hlen
  have hU0 := edgeStep_no_new_unburned (crown_step_edge A) i hU
  rcases List.mem_append.mp hi with hi1 | hi2
  · rw [(crown_step_spec A).2.2.2] at hi1
    exact h i (List.mem_append.mpr (Or.inl hi1)) hlen0 hU0
  · rcases (crown_step_spec A).2.2.1 i hi2 hlen0 with hold | hne
    · exact h i (List.mem_append.mpr (Or.inr hold)) hlen0 hU0
    · exact hne hU

theorem spot_step_edge (A : Automaton) (rng : ℕ → ℝ × ℝ) :
    EdgeStep A.cells (A.spotting_step rng).cells :=
  ignite_pointwise_to_edge (spot_step_spec A rng).2.1

theorem spot_step_nonneg (A : Automaton) (rng : ℕ → ℝ × ℝ) (h : NonNegCells A.cells) :
    NonNegCells (A.spotting_step rng).cells :=
  ignite_pointwise_nonneg (spot_step_spec A rng).2.1 (spot_step_spec A rng).1 h

theorem spot_step_wf (A : Automaton) (rng : ℕ → ℝ × ℝ) (h : WfWorklists A) :
    WfWorklists (A.spotting_step rng) := by
  intro i hi hlen
  intro hU
  have hlen0 : i < A.cells.length := by rw [← (spot_step_spec A rng).1]; exact hlen
  have hU0 := edgeStep_no_new_unburned (spot_step_edge A rng) i hU
  rcases List.mem_append.mp hi with hi1 | hi2
  · rcases (spot_step_spec A rng).2.2.1 i hi1 hlen0 with hold | hne
    · exact h i (List.mem_append.mpr (Or.inl hold)) hlen0 hU0
    · exact hne hU
  · rw [(spot_step_spec A rng).2.2.2] at hi2
    exact h i (List.mem_append.mpr (Or.inr hi2)) hlen0 hU0

theorem seed_step_edge (A : Automaton) (position : List ℝ) (radius : ℝ) :
    EdgeStep A.cells (applyOp A (SimOp.seed position radius)).cells :=
  ignite_pointwise_to_edge (seed_step_spec A position radius).2.1

theorem seed_step_nonneg (A : Automaton) (position : List ℝ) (radius : ℝ)
    (h : NonNegCells A.cells) :
    NonNegCells (applyOp A (SimOp.seed position radius)).cells :=
  ignite_pointwise_nonneg (seed_step_spec A position radius).2.1
    (seed_step_spec A position radius).1 h

theorem seed_step_wf (A : Automaton) (position : List ℝ) (radius : ℝ)
    (h : WfWorklists A) : WfWorklists (applyOp A (SimOp.seed position radius)) := by
  intro i hi hlen
  intro hU
  have hlen0 : i < A.cells.length := by
    rw [← (seed_step_spec A position radius).1]; exact hlen
  have hU0 := edgeStep_no_new_unburned (seed_step_edge A position radius) i hU
  rcases List.mem_append.mp hi with hi1 | hi2
  · rcases (seed_step_spec A position radius).2.2.1 i hi1 hlen0 with hold | hne
    · exact h i (List.mem_append.mpr (Or.inl hold)) hlen0 hU0
    · exact hne hU
  · rw [(seed_step_spec A position radius).2.2.2] at hi2
    exact h i (List.mem_append.mpr (Or.inr hi2)) hlen0 hU0

theorem update_statistics_frame (A : Automaton) :
    (update_statistics A).cells = A.cells ∧
    (update_statistics A).burning_surface_cells = A.burning_surface_cells ∧
    (update_statistics A).burning_canopy_cells = A.burning_canopy_cells :=
  ⟨rfl, rfl, rfl⟩

theorem record_history_frame (A : Automaton) :
    (record_history A).cells = A.cells ∧
    (record_history A).burning_surface_cells = A.burning_surface_cells ∧
    (record_history A).burning_canopy_cells = A.burning_canopy_cells := by
  unfold record_history
  split <;> exact ⟨rfl, rfl, rfl⟩

theorem wf_frame {X Y : Automaton} (hc : Y.cells = X.cells)
    (hs : Y.burning_surface_cells = X.burning_surface_cells)
    (hcc : Y.burning_canopy_cells = X.burning_canopy_cells)
    (h : WfWorklists X) : WfWorklists Y := by
  intro i hi hlen
  rw [hs, hcc] at hi
  rw [hc] at hlen ⊢
  exact h i hi hlen

/-! ## Step-level composition -/

theorem step_cells_wf (A : Automaton) (rng : ℕ → ℝ × ℝ) (h : WfWorklists A) :
    (∀ j, FirePath (stateAt A.cells j) (stateAt (A.step rng).cells j)) ∧
    WfWorklists (A.step rng) ∧ (A.step rng).cells.length = A.cells.length := by
  have h1e := energy_step_edge A
  have h1w := energy_step_wf A h
  have h1l := energy_step_len A
  have h2e := ignition_step_edge A.energy_transfer_step
  have h2w := ignition_step_wf _ h1w
  have h2l := ignition_step_len A.energy_transfer_step
  have h3e := fuel_step_edge _ h2w
  have h3w := fuel_step_wf _ h2w
  have h3l := fuel_step_len ((A.energy_transfer_step).ignition_step)
  have h4 :
      EdgeStep (((A.energy_transfer_step).ignition_step).fuel_consumption_step).cells
        (if (((A.energy_transfer_step).ignition_step).fuel_consumption_step).enable_crown_fire
         then (((A.energy_transfer_step).ignition_step).fuel_consumption_step).crown_fire_transition_step
         else ((A.energy_transfer_step).ignition_step).fuel_consumption_step).cells ∧
      WfWorklists
        (if (((A.energy_transfer_step).ignition_step).fuel_consumption_step).enable_crown_fire
         then (((A.energy_transfer_step).ignition_step).fuel_consumption_step).crown_fire_transition_step
         else ((A.energy_transfer_step).ignition_step).fuel_consumption_step) ∧
      (if (((A.energy_transfer_step).ignition_step).fuel_consumption_step).enable_crown_fire
       then (((A.energy_transfer_step).ignition_step).fuel_consumption_step).crown_fire_transition_step
       else ((A.energy_transfer_step).ignition_step).fuel_consumption_step).cells.length =
        (((A.energy_transfer_step).ignition_step).fuel_consumption_step).cells.length := by
    by_cases hc :
        (((A.energy_transfer_step).ignition_step).fuel_consumption_step).enable_crown_fire = true
    · rw [if_pos hc]
      exact ⟨crown_step_edge _, crown_step_wf _ h3w, (crown_step_spec _).1⟩
    · rw [if_neg hc]
      exact ⟨edgeStep_refl _, h3w, rfl⟩
  set A4 :=
    (if (((A.energy_transfer_step).ignition_step).fuel_consumption_step).enable_crown_fire
     then (((A.energy_transfer_step).ignition_step).fuel_consumption_step).crown_fire_transition_step
     else ((A.energy_transfer_step).ignition_step).fuel_consumption_step) with hA4def
  have h5 :
      EdgeStep A4.cells (if A4.enable_spotting then A4.spotting_step rng else A4).cells ∧
      WfWorklists (if A4.enable_spotting then A4.spotting_step rng else A4) ∧
      (if A4.enable_spotting then A4.spotting_step rng else A4).cells.length =
        A4.cells.length := by
    by_cases hs : A4.enable_spotting = true
    · rw [if_pos hs]
      exact ⟨spot_step_edge _ _, spot_step_wf _ _ h4.2.1, (spot_step_spec _ _).1⟩
    · rw [if_neg hs]
      exact ⟨edgeStep_refl _, h4.2.1, rfl⟩
  set A5 := (if A4.enable_spotting then A4.spotting_step rng else A4) with hA5def
  have hstep : A.step rng =
      record_history (update_statistics { A5 with current_time := A5.current_time + A5.dt }) := rfl
  have hfin_cells : (A.step rng).cells = A5.cells := by
    rw [hstep, (record_history_frame _).1]
    rfl
  have hfin_wls : (A.step rng).burning_surface_cells = A5.burning_surface_cells := by
    rw [hstep, (record_history_frame _).2.1]
    rfl
  have hfin_wlc : (A.step rng).burning_canopy_cells = A5.burning_canopy_cells := by
    rw [hstep, (record_history_frame _).2.2]
    rfl
  refine ⟨?_, ?_, ?_⟩
  · intro j
    have p1 := edgeStep_fire_path h1e j
    have p2 := edgeStep_fire_path h2e j
    have p3 := edgeStep_fire_path h3e j
    have p4 := edgeStep_fire_path h4.1 j
    have p5 := edgeStep_fire_path h5.1 j
    have pfin : stateAt (A.step rng).cells j = stateAt A5.cells j := by
      rw [hfin_cells]
    rw [pfin]
    exact ((((p1.trans p2).trans p3).trans p4).trans p5)
  · exact wf_frame hfin_cells hfin_wls hfin_wlc h5.2.1
  · rw [hfin_cells, h5.2.2, h4.2.2, h3l, h2l, h1l]

theorem step_nonneg (A : Automaton) (rng : ℕ → ℝ × ℝ) (h : NonNegCells A.cells) :
    NonNegCells (A.step rng).cells := by
  have h1 := energy_step_nonneg A h
  have h2 := ignition_step_nonneg A.energy_transfer_step h1
  have h3 := fuel_step_nonneg ((A.energy_transfer_step).ignition_step) h2
  have h4 :
      NonNegCells
        (if (((A.energy_transfer_step).ignition_step).fuel_consumption_step).enable_crown_fire
         then (((A.energy_transfer_step).ignition_step).fuel_consumption_step).crown_fire_transition_step
         else ((A.energy_transfer_step).ignition_step).fuel_consumption_step).cells := by
    by_cases hc :
        (((A.energy_transfer_step).ignition_step).fuel_consumption_step).enable_crown_fire = true
    · rw [if_pos hc]
      exact crown_step_nonneg _ h3
    · rw [if_neg hc]
      exact h3
  set A4 :=
    (if (((A.energy_transfer_step).ignition_step).fuel_consumption_step).enable_crown_fire
     then (((A.energy_transfer_step).ignition_step).fuel_consumption_step).crown_fire_transition_step
     else ((A.energy_transfer_step).ignition_step).fuel_consumption_step) with hA4def
  have h5 : NonNegCells (if A4.enable_spotting then A4.spotting_step rng else A4).cells := by
    by_cases hs : A4.enable_spotting = true
    · rw [if_pos hs]
      exact spot_step_nonneg _ _ h4
    · rw [if_neg hs]
      exact h4
  set A5 := (if A4.enable_spotting then A4.spotting_step rng else A4) with hA5def
  have hfin_cells : (A.step rng).cells = A5.cells := by
    rw [show A.step rng =
      record_history (update_statistics { A5 with current_time := A5.current_time + A5.dt })
      from rfl, (record_history_frame _).1]
    rfl
  rw [hfin_cells]
  exact h5

/-! ## Operation-level lemmas -/

theorem applyOp_edge_wf (A : Automaton) (op : SimOp) (h : WfWorklists A) :
    (∀ j, FirePath (stateAt A.cells j) (stateAt (applyOp A op).cells j)) ∧
    WfWorklists (applyOp A op) := by
  cases op with
  | doStep rng => exact ⟨(step_cells_wf A rng h).1, (step_cells_wf A rng h).2.1⟩
  | seed position radius =>
    exact ⟨fun j => edgeStep_fire_path (seed_step_edge A position radius) j,
           seed_step_wf A position radius h⟩

theorem applyOp_nonneg (A : Automaton) (op : SimOp) (h : NonNegCells A.cells) :
    NonNegCells (applyOp A op).cells := by
  cases op with
  | doStep rng => exact step_nonneg A rng h
  | seed position radius => exact seed_step_nonneg A position radius h

theorem applyOps_edge_wf (A : Automaton) (ops : List SimOp) (h : WfWorklists A) :
    (∀ j, FirePath (stateAt A.cells j) (stateAt (applyOps A ops).cells j)) ∧
    WfWorklists (applyOps A ops) := by
  induction ops generalizing A with
  | nil => exact ⟨fun j => Relation.ReflTransGen.refl, h⟩
  | cons op ops ih =>
    have h1 := applyOp_edge_wf A op h
    have h2 := ih (applyOp A op) h1.2
    exact ⟨fun j => (h1.1 j).trans (h2.1 j), h2.2⟩

theorem applyOps_nonneg (A : Automaton) (ops : List SimOp) (h : NonNegCells A.cells) :
    NonNegCells (applyOps A ops).cells := by
  induction ops generalizing A with
  | nil => exact h
  | cons op ops ih => exact ih (applyOp A op) (applyOp_nonneg A op h)

theorem applyAtomic_edge (A : Automaton) (h : WfWorklists A) (ph : AtomicPhase) :
    EdgeStep A.cells (applyAtomic A ph).cells := by
  cases ph with
  | energy => exact energy_step_edge A
  | ignition => exact ignition_step_edge A
  | fuel => exact fuel_step_edge A h
  | crown => exact crown_step_edge A
  | spot rng => exact spot_step_edge A rng
  | seedFire position radius => exact seed_step_edge A position radius

/-! ## Claims C1 and C7 -/

/-- C1: for every simulation state whose burning worklists are well formed
(as every state reachable from a freshly built terrain is) and every
sequence of public operations — `step()` calls and ignition seeding via
`set_ignition_point` — each cell's fire state moves only along the graph
UNBURNED → SURFACE_FIRE | CROWN_FIRE → BURNED_OUT: across any operation
sequence the initial and final state of every cell are joined by a path in
that graph, no cell ever leaves BURNED_OUT, and every atomic pipeline
stage moves a cell by at most one edge of the graph — in particular no
stage ever moves a cell directly from UNBURNED to BURNED_OUT. -/
theorem claim_C1_fire_state_monotone (A : Automaton) (hWf : WfWorklists A)
    (ops : List SimOp) :
    (∀ j, FirePath (stateAt A.cells j) (stateAt (applyOps A ops).cells j)) ∧
    (∀ j, stateAt A.cells j = CellState.BURNED_OUT →
      stateAt (applyOps A ops).cells j = CellState.BURNED_OUT) ∧
    (∀ ph : AtomicPhase, ∀ j,
      stateAt (applyAtomic A ph).cells j = stateAt A.cells j ∨
      FireEdge (stateAt A.cells j) (stateAt (applyAtomic A ph).cells j)) := by
  refine ⟨(applyOps_edge_wf A ops hWf).1, ?_, fun ph j => applyAtomic_edge A hWf ph j⟩
  intro j hB
  have hp := (applyOps_edge_wf A ops hWf).1 j
  rw [hB] at hp
  exact firePath_burned_out hp

/-- Witness for C1: the empty automaton with one `step()` call. -/
theorem claim_C1_witness :
    WfWorklists emptyAutomaton ∧
    ((∀ j, FirePath (stateAt emptyAutomaton.cells j)
        (stateAt (applyOps emptyAutomaton [SimOp.doStep constRng]).cells j)) ∧
     (∀ j, stateAt emptyAutomaton.cells j = CellState.BURNED_OUT →
        stateAt (applyOps emptyAutomaton [SimOp.doStep constRng]).cells j =
          CellState.BURNED_OUT) ∧
     (∀ ph : AtomicPhase, ∀ j,
        stateAt (applyAtomic emptyAutomaton ph).cells j =
          stateAt emptyAutomaton.cells j ∨
        FireEdge (stateAt emptyAutomaton.cells j)
          (stateAt (applyAtomic emptyAutomaton ph).cells j))) := by
  have hWf : WfWorklists emptyAutomaton := by
    intro i hi
    simp [emptyAutomaton] at hi
  exact ⟨hWf, claim_C1_fire_state_monotone emptyAutomaton hWf [SimOp.doStep constRng]⟩

/-- C7: fuel load and moisture content never become negative: from any
population of cells with non-negative fuel and moisture, every sequence of
`step()` calls and seedings preserves non-negativity, and at the level of
the individual cell operations `update_moisture` clamps its result at 0,
`consume_fuel` floors the fuel load at 0, and `burn_out` sets the fuel
load to exactly 0. -/
theorem claim_C7_nonnegative (A : Automaton) (h : NonNegCells A.cells)
    (ops : List SimOp) :
    NonNegCells (applyOps A ops).cells ∧
    (∀ (c : Cell) (d : ℝ), 0 ≤ (c.update_moisture d).dynamic.moisture_content) ∧
    (∀ (c : Cell) (r dt : ℝ), 0 ≤ (c.consume_fuel r dt).dynamic.fuel_load) ∧
    (∀ c : Cell, (c.burn_out).dynamic.fuel_load = 0) :=
  ⟨applyOps_nonneg A ops h, update_moisture_nonneg, consume_fuel_nonneg,
   burn_out_fuel⟩

/-- Witness for C7: the empty automaton with one `step()` call. -/
theorem claim_C7_witness :
    NonNegCells emptyAutomaton.cells ∧
    (NonNegCells (applyOps emptyAutomaton [SimOp.doStep constRng]).cells ∧
     (∀ (c : Cell) (d : ℝ), 0 ≤ (c.update_moisture d).dynamic.moisture_content) ∧
     (∀ (c : Cell) (r dt : ℝ), 0 ≤ (c.consume_fuel r dt).dynamic.fuel_load) ∧
     (∀ c : Cell, (c.burn_out).dynamic.fuel_load = 0)) := by
  have h : NonNegCells emptyAutomaton.cells := by
    intro j hj
    simp [emptyAutomaton] at hj
  exact ⟨h, claim_C7_nonnegative emptyAutomaton h [SimOp.doStep constRng]⟩

/-! ## Claims C8, C9, C5, C10 -/

/-- C8: calling the ignition operation with a position tuple whose arity is
neither 2 nor 3 fails with the descriptive ValueError message, before any
cell is touched: the terrain-level call returns the error, the
automaton-level call propagates it, and the failed operation leaves the
automaton (cells, worklists, statistics, histories) completely unchanged. -/
theorem claim_C8_bad_arity (cells : List Cell) (idxs : List ℕ) (position : List ℝ)
    (radius : ℝ) (h2 : position.length ≠ 2) (h3 : position.length ≠ 3) :
    TerrainGenerator.set_ignition_point cells idxs position radius =
      Except.error "position must be (x, y) or (x, y, z)" ∧
    (∀ A : Automaton, A.set_ignition_point position radius =
      Except.error "position must be (x, y) or (x, y, z)") ∧
    (∀ A : Automaton, applyOp A (SimOp.seed position radius) = A) := by
  have hterr : ∀ (cs : List Cell) (ix : List ℕ),
      TerrainGenerator.set_ignition_point cs ix position radius =
        Except.error "position must be (x, y) or (x, y, z)" := by
    intro cs ix
    unfold TerrainGenerator.set_ignition_point
    rw [if_neg (by rintro (h | h); exacts [h2 h, h3 h])]
  refine ⟨hterr cells idxs, ?_, ?_⟩
  · intro A
    unfold Automaton.set_ignition_point
    rw [hterr]
  · intro A
    show (match A.set_ignition_point position radius with
          | Except.ok A1 => A1
          | Except.error _ => A) = A
    rw [show A.set_ignition_point position radius =
      Except.error "position must be (x, y) or (x, y, z)" by
        unfold Automaton.set_ignition_point
        rw [hterr]]

/-- Witness for C8: the empty position tuple. -/
theorem claim_C8_witness :
    ([] : List ℝ).length ≠ 2 ∧ ([] : List ℝ).length ≠ 3 ∧
    (TerrainGenerator.set_ignition_point [] [] [] 1 =
       Except.error "position must be (x, y) or (x, y, z)" ∧
     (∀ A : Automaton, A.set_ignition_point [] 1 =
       Except.error "position must be (x, y) or (x, y, z)") ∧
     (∀ A : Automaton, applyOp A (SimOp.seed [] 1) = A)) := by
  have h2 : ([] : List ℝ).length ≠ 2 := by decide
  have h3 : ([] : List ℝ).length ≠ 3 := by decide
  exact ⟨h2, h3, claim_C8_bad_arity [] [] [] 1 h2 h3⟩

/-- C9: the flat/slope boundary used by the spread-rate code is the literal
constant 4000.0, independent of the terrain-generation parameters; the
boundary-crossing test holds exactly when exactly one of the two cells has
y-coordinate greater than 4000, and in that case and only that case the
slope and aspect handed to the wind projection come from the target cell
(otherwise from the source cell). -/
theorem claim_C9_boundary_constant (e : FireConfig) (from_cell to_cell : Cell)
    (w : Bool) :
    (cells_cross_terrain_boundary from_cell to_cell ↔
      ¬((4000 < from_cell.static.position.2.1) ↔
        (4000 < to_cell.static.position.2.1))) ∧
    calculate_spread_rate e from_cell to_cell w =
      max 0 (e.R0 *
        wind_effect e (sub3 to_cell.static.position from_cell.static.position)
          (if ¬((4000 < from_cell.static.position.2.1) ↔
                (4000 < to_cell.static.position.2.1))
           then to_cell.static.slope else from_cell.static.slope)
          (if ¬((4000 < from_cell.static.position.2.1) ↔
                (4000 < to_cell.static.position.2.1))
           then to_cell.static.aspect else from_cell.static.aspect) w *
        e.Ks * moisture_effect e to_cell.dynamic.moisture_content *
        slope_effect e (local_slope_of from_cell to_cell)) := by
  have h1 : ((from_cell.static.position.2.1 ≤ (4000 : ℝ)) ↔
      (to_cell.static.position.2.1 ≤ (4000 : ℝ))) ↔
      (((4000 : ℝ) < from_cell.static.position.2.1) ↔
       ((4000 : ℝ) < to_cell.static.position.2.1)) := by
    rw [← not_lt, ← not_lt]
    exact not_iff_not
  have hiff : cells_cross_terrain_boundary from_cell to_cell ↔
      ¬((4000 < from_cell.static.position.2.1) ↔
        (4000 < to_cell.static.position.2.1)) := by
    unfold cells_cross_terrain_boundary
    exact not_congr h1
  refine ⟨hiff, ?_⟩
  unfold calculate_spread_rate
  simp only [hiff]

/-- C5: with wind disabled and with cell positions whose computed local
slope is 0, the spread rate is exactly base_rate × fuel_coefficient ×
exp(−moisture_decay × target moisture); in particular the wind factor is
exactly 1 whenever wind is disabled, and the slope factor at slope 0 is
exactly 1.  The two side conditions hold for every meaningful
configuration: a non-negative slope clamp and a non-negative product of
base rate and fuel coefficient (defaults 55, 0.5 and 1.2). -/
theorem claim_C5_flat_ground_rate (e : FireConfig) (from_cell to_cell : Cell)
    (hslope : local_slope_of from_cell to_cell = 0)
    (hmax : 0 ≤ e.max_slope_deg) (hK : 0 ≤ e.R0 * e.Ks) :
    calculate_spread_rate e from_cell to_cell false =
      e.R0 * e.Ks *
        Real.exp (-e.moisture_factor_b * to_cell.dynamic.moisture_content) ∧
    (∀ (v : ℝ × ℝ × ℝ) (sl asp : ℝ), wind_effect e v sl asp false = 1) ∧
    slope_effect e 0 = 1 := by
  have hwind : ∀ (v : ℝ × ℝ × ℝ) (sl asp : ℝ), wind_effect e v sl asp false = 1 := by
    intro v sl asp
    unfold wind_effect
    rw [if_pos rfl]
  have hse : slope_effect e 0 = 1 := by
    simp only [slope_effect]
    rw [abs_zero, zero_mul, zero_div, if_neg (not_lt.mpr hmax), zero_mul, zero_div,
        if_neg (lt_irrefl (0 : ℝ)), mul_zero, Real.exp_zero]
  refine ⟨?_, hwind, hse⟩
  simp only [calculate_spread_rate]
  rw [hslope, hse, hwind]
  simp only [moisture_effect]
  rw [mul_one, mul_one]
  exact max_eq_right (mul_nonneg hK (Real.exp_pos _).le)

/-- Witness for C5: two distinct cells stacked vertically (zero horizontal
distance, so the code assigns local slope 0) and a configuration with unit
base rate and fuel coefficient. -/
theorem claim_C5_witness :
    local_slope_of c5Source c5Target = 0 ∧
    (0 : ℝ) ≤ c5Config.max_slope_deg ∧ (0 : ℝ) ≤ c5Config.R0 * c5Config.Ks ∧
    (calculate_spread_rate c5Config c5Source c5Target false =
       c5Config.R0 * c5Config.Ks *
         Real.exp (-c5Config.moisture_factor_b *
           c5Target.dynamic.moisture_content) ∧
     (∀ (v : ℝ × ℝ × ℝ) (sl asp : ℝ), wind_effect c5Config v sl asp false = 1) ∧
     slope_effect c5Config 0 = 1) := by
  have hslope : local_slope_of c5Source c5Target = 0 := by
    unfold local_slope_of
    simp [c5Source, c5Target, sub3, Real.sqrt_zero]
  have hmax : (0 : ℝ) ≤ c5Config.max_slope_deg := zero_le_one
  have hK : (0 : ℝ) ≤ c5Config.R0 * c5Config.Ks := by
    show (0 : ℝ) ≤ 1 * 1
    rw [mul_one]
    exact zero_le_one
  exact ⟨hslope, hmax, hK,
    claim_C5_flat_ground_rate c5Config c5Source c5Target hslope hmax hK⟩

/-- C10: a SURFACE_FIRE cell none of whose neighbours is UNBURNED (in
particular one with an empty neighbour list) has fire-line intensity
exactly 0, and therefore crown fire cannot initiate from it whenever its
Van-Wagner critical intensity is non-negative. -/
theorem claim_C10_no_unburned_neighbors (e : FireConfig) (cells : List Cell)
    (c : Cell) (hstate : c.dynamic.state = CellState.SURFACE_FIRE)
    (hnb : ∀ ni ∈ c.neighbors,
      (cellAt cells ni).dynamic.state ≠ CellState.UNBURNED) :
    calculate_fire_line_intensity e cells c = 0 ∧
    (0 ≤ critical_intensity c → ¬ can_crown_fire_initiate e cells c) := by
  have hzero : calculate_fire_line_intensity e cells c = 0 := by
    unfold calculate_fire_line_intensity
    rw [if_neg (fun h => h hstate)]
    have hacc : c.neighbors.foldl
        (fun (p : ℝ × ℕ) ni =>
          if (cellAt cells ni).dynamic.state = CellState.UNBURNED then
            (p.1 + calculate_spread_rate e c (cellAt cells ni) true, p.2 + 1)
          else p)
        ((0 : ℝ), (0 : ℕ)) = ((0 : ℝ), (0 : ℕ)) := by
      refine foldl_preserves _ (fun p => p = ((0 : ℝ), (0 : ℕ)))
        c.neighbors ((0 : ℝ), (0 : ℕ)) rfl ?_
      intro p a hp ha
      rw [if_neg (hnb a ha)]
      exact hp
    rw [hacc]
    simp
  refine ⟨hzero, ?_⟩
  intro hcrit hcan
  unfold can_crown_fire_initiate at hcan
  rw [hzero] at hcan
  exact absurd hcan (not_lt.mpr hcrit)

/-- Witness for C10: a surface-fire cell with no neighbours and zero canopy
base height (so the Van-Wagner critical value is rpow of 0, which is 0). -/
theorem claim_C10_witness :
    c10Cell.dynamic.state = CellState.SURFACE_FIRE ∧
    (∀ ni ∈ c10Cell.neighbors,
      (cellAt ([] : List Cell) ni).dynamic.state ≠ CellState.UNBURNED) ∧
    (calculate_fire_line_intensity {} [] c10Cell = 0 ∧
     (0 ≤ critical_intensity c10Cell → ¬ can_crown_fire_initiate {} [] c10Cell)) := by
  have h1 : c10Cell.dynamic.state = CellState.SURFACE_FIRE := rfl
  have h2 : ∀ ni ∈ c10Cell.neighbors,
      (cellAt ([] : List Cell) ni).dynamic.state ≠ CellState.UNBURNED := by
    intro ni hni
    simp [c10Cell] at hni
  exact ⟨h1, h2, claim_C10_no_unburned_neighbors {} [] c10Cell h1 h2⟩

/-! ## Energy-map characterization (stage 1) -/

theorem lookupEnergy_addEnergy (m : List (ℕ × ℝ)) (k : ℕ) (v : ℝ) (k2 : ℕ) :
    lookupEnergy (addEnergy m k v) k2 =
      if k2 = k then some ((lookupEnergy m k).getD 0 + v) else lookupEnergy m k2 := by
  induction m with
  | nil =>
    by_cases h : k2 = k
    · subst h
      simp [addEnergy, lookupEnergy]
    · have h2 : ¬ k = k2 := fun hh => h hh.symm
      simp [addEnergy, lookupEnergy, h, h2]
  | cons p m ih =>
    by_cases h1 : p.1 = k
    · subst h1
      simp only [addEnergy, if_pos rfl, lookupEnergy]
      by_cases h2 : k2 = p.1
      · subst h2
        simp [lookupEnergy]
      · have h2b : ¬ p.1 = k2 := fun hh => h2 hh.symm
        rw [if_neg h2b, if_neg h2, if_neg h2b]
    · simp only [addEnergy, if_neg h1, lookupEnergy]
      by_cases h2 : p.1 = k2
      · have hk : ¬ k2 = k := fun hh => h1 (h2.trans hh)
        rw [if_pos h2, if_neg hk, if_pos h2]
      · rw [if_neg h2, ih, if_neg h2]

theorem neighborFold_getD (A : Automaton) (bi : ℕ) (nbrs : List ℕ)
    (m : List (ℕ × ℝ)) (cid : ℕ) :
    (lookupEnergy (nbrs.foldl
      (fun m ni =>
        let neighbor := cellAt A.cells ni
        if neighbor.dynamic.state = CellState.UNBURNED then
          addEnergy m neighbor.static.id
            (calculate_energy_transfer A.cfg (cellAt A.cells bi) neighbor A.dt
              A.enable_wind_effects)
        else m) m) cid).getD 0 =
    (lookupEnergy m cid).getD 0 +
      ((nbrs.filter
          (fun ni => decide ((cellAt A.cells ni).dynamic.state = CellState.UNBURNED ∧
                             (cellAt A.cells ni).static.id = cid))).map
        (fun ni => calculate_energy_transfer A.cfg (cellAt A.cells bi)
                     (cellAt A.cells ni) A.dt A.enable_wind_effects)).sum := by
  induction nbrs generalizing m with
  | nil => simp
  | cons ni rest ih =>
    rw [List.foldl_cons, ih]
    dsimp only
    by_cases h1 : (cellAt A.cells ni).dynamic.state = CellState.UNBURNED
    · by_cases h2 : (cellAt A.cells ni).static.id = cid
      · rw [if_pos h1, lookupEnergy_addEnergy, if_pos h2.symm]
        rw [List.filter_cons_of_pos (by simp [h1, h2]), List.map_cons, List.sum_cons]
        simp only [Option.getD_some]
        rw [h2]
        ring
      · rw [if_pos h1, lookupEnergy_addEnergy, if_neg (fun hh => h2 hh.symm)]
        rw [List.filter_cons_of_neg (by simp [h1, h2])]
    · rw [if_neg h1]
      rw [List.filter_cons_of_neg (by simp [h1])]

theorem neighborFold_isSome (A : Automaton) (bi : ℕ) (nbrs : List ℕ)
    (m : List (ℕ × ℝ)) (cid : ℕ) :
    (lookupEnergy (nbrs.foldl
      (fun m ni =>
        let neighbor := cellAt A.cells ni
        if neighbor.dynamic.state = CellState.UNBURNED then
          addEnergy m neighbor.static.id
            (calculate_energy_transfer A.cfg (cellAt A.cells bi) neighbor A.dt
              A.enable_wind_effects)
        else m) m) cid).isSome = true ↔
    (lookupEnergy m cid).isSome = true ∨
      ∃ ni ∈ nbrs, (cellAt A.cells ni).dynamic.state = CellState.UNBURNED ∧
        (cellAt A.cells ni).static.id = cid := by
  induction nbrs generalizing m with
  | nil => simp
  | cons ni rest ih =>
    rw [List.foldl_cons, ih]
    dsimp only
    by_cases h1 : (cellAt A.cells ni).dynamic.state = CellState.UNBURNED
    · by_cases h2 : (cellAt A.cells ni).static.id = cid
      · rw [if_pos h1]
        constructor
        · intro _
          exact Or.inr ⟨ni, by simp, h1, h2⟩
        · intro _
          rw [lookupEnergy_addEnergy, if_pos h2.symm]
          simp
      · rw [if_pos h1, lookupEnergy_addEnergy, if_neg (fun hh => h2 hh.symm)]
        constructor
        · rintro (h | ⟨x, hx, hxs, hxi⟩)
          · exact Or.inl h
          · exact Or.inr ⟨x, by simp [hx], hxs, hxi⟩
        · rintro (h | ⟨x, hx, hxs, hxi⟩)
          · exact Or.inl h
          · rcases List.mem_cons.mp hx with hx0 | hx0
            · exact absurd (hx0 ▸ hxi) h2
            · exact Or.inr ⟨x, hx0, hxs, hxi⟩
    · rw [if_neg h1]
      constructor
      · rintro (h | ⟨x, hx, hxs, hxi⟩)
        · exact Or.inl h
        · exact Or.inr ⟨x, by simp [hx], hxs, hxi⟩
      · rintro (h | ⟨x, hx, hxs, hxi⟩)
        · exact Or.inl h
        · rcases List.mem_cons.mp hx with hx0 | hx0
          · exact absurd (hx0 ▸ hxs) h1
          · exact Or.inr ⟨x, hx0, hxs, hxi⟩

theorem energySources_cons (A : Automaton) (bi : ℕ) (rest : List ℕ)
    (m : List (ℕ × ℝ)) :
    energySources A (bi :: rest) m =
      energySources A rest ((cellAt A.cells bi).neighbors.foldl
        (fun m ni =>
          let neighbor := cellAt A.cells ni
          if neighbor.dynamic.state = CellState.UNBURNED then
            addEnergy m neighbor.static.id
              (calculate_energy_transfer A.cfg (cellAt A.cells bi) neighbor A.dt
                A.enable_wind_effects)
          else m) m) := rfl

theorem energySources_getD (A : Automaton) (srcs : List ℕ) (m : List (ℕ × ℝ))
    (cid : ℕ) :
    (lookupEnergy (energySources A srcs m) cid).getD 0 =
      (lookupEnergy m cid).getD 0 +
      (srcs.map
        (fun bi =>
          (((cellAt A.cells bi).neighbors.filter
              (fun ni => decide ((cellAt A.cells ni).dynamic.state = CellState.UNBURNED ∧
                                 (cellAt A.cells ni).static.id = cid))).map
            (fun ni => calculate_energy_transfer A.cfg (cellAt A.cells bi)
                         (cellAt A.cells ni) A.dt A.enable_wind_effects)).sum)).sum := by
  induction srcs generalizing m with
  | nil => simp [energySources]
  | cons bi rest ih =>
    rw [energySources_cons, ih, neighborFold_getD, List.map_cons, List.sum_cons]
    ring

theorem energySources_isSome (A : Automaton) (srcs : List ℕ) (m : List (ℕ × ℝ))
    (cid : ℕ) :
    (lookupEnergy (energySources A srcs m) cid).isSome = true ↔
      (lookupEnergy m cid).isSome = true ∨
      ∃ bi ∈ srcs, ∃ ni ∈ (cellAt A.cells bi).neighbors,
        (cellAt A.cells ni).dynamic.state = CellState.UNBURNED ∧
        (cellAt A.cells ni).static.id = cid := by
  induction srcs generalizing m with
  | nil => simp [energySources]
  | cons bi rest ih =>
    rw [energySources_cons, ih, neighborFold_isSome]
    constructor
    · rintro ((h | ⟨ni, hni, hs, hid⟩) | ⟨x, hx, ni, hni, hs, hid⟩)
      · exact Or.inl h
      · exact Or.inr ⟨bi, by simp, ni, hni, hs, hid⟩
      · exact Or.inr ⟨x, by simp [hx], ni, hni, hs, hid⟩
    · rintro (h | ⟨x, hx, ni, hni, hs, hid⟩)
      · exact Or.inl (Or.inl h)
      · rcases List.mem_cons.mp hx with hx0 | hx0
        · subst hx0
          exact Or.inl (Or.inr ⟨ni, hni, hs, hid⟩)
        · exact Or.inr ⟨x, hx0, ni, hni, hs, hid⟩

theorem energyUpdates_lookup (A : Automaton) (cid : ℕ) :
    lookupEnergy (energyUpdates A) cid =
      if Heated A cid then some (incomingEnergy A cid) else none := by
  have hg : (lookupEnergy (energyUpdates A) cid).getD 0 = incomingEnergy A cid := by
    unfold energyUpdates incomingEnergy
    rw [energySources_getD, energySources_getD, List.map_append, List.sum_append]
    simp [lookupEnergy]
    try ring
  have hs : (lookupEnergy (energyUpdates A) cid).isSome = true ↔ Heated A cid := by
    unfold energyUpdates Heated
    rw [energySources_isSome, energySources_isSome]
    simp only [lookupEnergy, Option.isSome_none, Bool.false_eq_true, false_or,
      List.mem_append]
    constructor
    · rintro (⟨bi, hbi, rest⟩ | ⟨bi, hbi, rest⟩)
      · exact ⟨bi, Or.inl hbi, rest⟩
      · exact ⟨bi, Or.inr hbi, rest⟩
    · rintro ⟨bi, hbi | hbi, rest⟩
      · exact Or.inl ⟨bi, hbi, rest⟩
      · exact Or.inr ⟨bi, hbi, rest⟩
  cases hl : lookupEnergy (energyUpdates A) cid with
  | none =>
    have hH : ¬ Heated A cid := by
      rw [← hs, hl]
      simp
    rw [if_neg hH]
  | some v =>
    have hH : Heated A cid := by
      rw [← hs, hl]
      rfl
    rw [if_pos hH]
    have hv := hg
    rw [hl] at hv
    simp only [Option.getD_some] at hv
    rw [hv]

theorem applyEnergy_cons (cfg : FireConfig) (cells : List Cell) (j : ℕ)
    (rest : List ℕ) (m : List (ℕ × ℝ)) :
    applyEnergyUpdates cfg cells (j :: rest) m =
      applyEnergyUpdates cfg
        (match lookupEnergy m (cellAt cells j).static.id with
         | some er => cells.set j (update_moisture_from_heat cfg
             ((cellAt cells j).update_energy er) er)
         | none => cells) rest m := rfl

theorem applyEnergy_untouched (cfg : FireConfig) (m : List (ℕ × ℝ)) :
    ∀ (pop : List ℕ) (cs : List Cell) (i : ℕ), i ∉ pop →
      cellAt (applyEnergyUpdates cfg cs pop m) i = cellAt cs i := by
  intro pop
  induction pop with
  | nil => intro cs i _; rfl
  | cons j rest ih =>
    intro cs i hi
    have hij : i ≠ j := fun h => hi (h ▸ List.mem_cons_self j rest)
    have hir : i ∉ rest := fun h => hi (List.mem_cons_of_mem j h)
    rw [applyEnergy_cons, ih _ i hir]
    cases hm : lookupEnergy m (cellAt cs j).static.id with
    | none => simp only [hm]
    | some er =>
      simp only [hm]
      exact cellAt_set_ne _ _ _ _ (fun h => hij h.symm)

theorem applyEnergy_pointwise (cfg : FireConfig) (m : List (ℕ × ℝ)) :
    ∀ (pop : List ℕ) (cs : List Cell), pop.Nodup → (∀ j ∈ pop, j < cs.length) →
      ∀ i ∈ pop, cellAt (applyEnergyUpdates cfg cs pop m) i =
        (match lookupEnergy m (cellAt cs i).static.id with
         | some er => update_moisture_from_heat cfg ((cellAt cs i).update_energy er) er
         | none => cellAt cs i) := by
  intro pop
  induction pop with
  | nil => intro cs _ _ i hi; exact absurd hi (List.not_mem_nil i)
  | cons j rest ih =>
    intro cs hnd hlen i hi
    rw [applyEnergy_cons]
    rcases List.mem_cons.mp hi with hij | hir
    · subst hij
      rw [applyEnergy_untouched cfg m rest _ i (List.nodup_cons.mp hnd).1]
      cases hm : lookupEnergy m (cellAt cs i).static.id with
      | none => simp only [hm]
      | some er =>
        simp only [hm]
        rw [cellAt_set, if_pos ⟨rfl, hlen i (by simp)⟩]
    · have hne : j ≠ i := fun h => (List.nodup_cons.mp hnd).1 (h ▸ hir)
      have hXi : cellAt (match lookupEnergy m (cellAt cs j).static.id with
         | some er => cs.set j (update_moisture_from_heat cfg
             ((cellAt cs j).update_energy er) er)
         | none => cs) i = cellAt cs i := by
        cases hm : lookupEnergy m (cellAt cs j).static.id with
        | none => simp only [hm]
        | some er =>
          simp only [hm]
          exact cellAt_set_ne _ _ _ _ hne
      have hstep_len : (match lookupEnergy m (cellAt cs j).static.id with
         | some er => cs.set j (update_moisture_from_heat cfg
             ((cellAt cs j).update_energy er) er)
         | none => cs).length = cs.length := by
        cases hm : lookupEnergy m (cellAt cs j).static.id with
        | none => simp only [hm]
        | some er =>
          simp only [hm, List.length_set]
      rw [ih _ (List.nodup_cons.mp hnd).2
          (fun x hx => by rw [hstep_len]; exact hlen x (List.mem_cons_of_mem j hx))
          i hir, hXi]

/-- C6: within one `step()`, the per-step energy map is computed only from
the cells that were on a burning worklist at the start of the step; for a
population without duplicate entries, each population cell whose id is
touched by the map receives `update_energy` exactly once with the
accumulated per-step total for its id (the id-keyed sum over start-of-step
burning sources and their UNBURNED neighbours), immediately followed by
exactly one moisture-feedback call with that same total, and every other
cell is left untouched — so cells ignited later in the same step transfer
no energy until the following step. -/
theorem claim_C6_energy_accumulation (A : Automaton)
    (hnd : (A.surface_cells ++ A.canopy_cells).Nodup)
    (hlen : ∀ j ∈ A.surface_cells ++ A.canopy_cells, j < A.cells.length)
    (i : ℕ) (hi : i ∈ A.surface_cells ++ A.canopy_cells) :
    cellAt (A.energy_transfer_step).cells i =
      (if Heated A (cellAt A.cells i).static.id then
        update_moisture_from_heat A.cfg
          ((cellAt A.cells i).update_energy
            (incomingEnergy A (cellAt A.cells i).static.id))
          (incomingEnergy A (cellAt A.cells i).static.id)
       else cellAt A.cells i) := by
  rw [energy_step_cells,
      applyEnergy_pointwise A.cfg (energyUpdates A) _ _ hnd hlen i hi,
      energyUpdates_lookup]
  by_cases hH : Heated A (cellAt A.cells i).static.id
  · rw [if_pos hH, if_pos hH]
  · rw [if_neg hH, if_neg hH]

/-- Witness for C6: a two-cell automaton where cell 0 burns next to the
UNBURNED cell 1. -/
theorem claim_C6_witness :
    (c6Automaton.surface_cells ++ c6Automaton.canopy_cells).Nodup ∧
    (∀ j ∈ c6Automaton.surface_cells ++ c6Automaton.canopy_cells,
      j < c6Automaton.cells.length) ∧
    (1 : ℕ) ∈ c6Automaton.surface_cells ++ c6Automaton.canopy_cells ∧
    cellAt (c6Automaton.energy_transfer_step).cells 1 =
      (if Heated c6Automaton (cellAt c6Automaton.cells 1).static.id then
        update_moisture_from_heat c6Automaton.cfg
          ((cellAt c6Automaton.cells 1).update_energy
            (incomingEnergy c6Automaton (cellAt c6Automaton.cells 1).static.id))
          (incomingEnergy c6Automaton (cellAt c6Automaton.cells 1).static.id)
       else cellAt c6Automaton.cells 1) := by
  have hnd : (c6Automaton.surface_cells ++ c6Automaton.canopy_cells).Nodup := by
    simp [c6Automaton]
  have hlen : ∀ j ∈ c6Automaton.surface_cells ++ c6Automaton.canopy_cells,
      j < c6Automaton.cells.length := by
    intro j hj
    simp [c6Automaton] at hj ⊢
    rcases hj with h | h <;> subst h <;> decide
  have hi : (1 : ℕ) ∈ c6Automaton.surface_cells ++ c6Automaton.canopy_cells := by
    simp [c6Automaton]
  exact ⟨hnd, hlen, hi, claim_C6_energy_accumulation c6Automaton hnd hlen 1 hi⟩

/-! ## Quiet steps: empty worklists and no ignitable cell -/

theorem applyEnergy_nil (cfg : FireConfig) (cells : List Cell) (pop : List ℕ) :
    applyEnergyUpdates cfg cells pop [] = cells := by
  induction pop generalizing cells with
  | nil => rfl
  | cons i rest ih => exact ih cells

theorem energy_step_quiet (A : Automaton) (hs : A.burning_surface_cells = [])
    (hc : A.burning_canopy_cells = []) : A.energy_transfer_step = A := by
  have h0 : energyUpdates A = [] := by
    unfold Automaton.energyUpdates
    rw [hs, hc]
    rfl
  unfold Automaton.energy_transfer_step
  rw [h0, applyEnergy_nil]

theorem ignitionScan_quiet (cells : List Cell) (ft : CellState) :
    ∀ pop : List ℕ, (∀ i ∈ pop, ¬ (cellAt cells i).can_ignite) →
      ignitionScan cells pop ft = (cells, []) := by
  intro pop
  induction pop with
  | nil => intro _; rfl
  | cons i rest ih =>
    intro h
    have hi := h i (List.mem_cons_self i rest)
    unfold Automaton.ignitionScan
    rw [List.foldl_cons]
    dsimp only
    rw [if_neg hi]
    exact ih (fun j hj => h j (List.mem_cons_of_mem i hj))

theorem ignition_step_quiet (A : Automaton)
    (h : ∀ i ∈ A.surface_cells ++ A.canopy_cells, ¬ (cellAt A.cells i).can_ignite) :
    A.ignition_step = A := by
  have h1 : ignitionScan A.cells A.surface_cells CellState.SURFACE_FIRE = (A.cells, []) :=
    ignitionScan_quiet A.cells CellState.SURFACE_FIRE A.surface_cells
      (fun i hi => h i (List.mem_append_left _ hi))
  have h2 : ignitionScan A.cells A.canopy_cells CellState.CROWN_FIRE = (A.cells, []) :=
    ignitionScan_quiet A.cells CellState.CROWN_FIRE A.canopy_cells
      (fun i hi => h i (List.mem_append_right _ hi))
  simp only [Automaton.ignition_step]
  rw [h1]
  dsimp only
  rw [h2]
  dsimp only
  rw [List.append_nil, List.append_nil]

theorem fuel_step_quiet (A : Automaton) (hs : A.burning_surface_cells = [])
    (hc : A.burning_canopy_cells = []) : A.fuel_consumption_step = A := by
  simp only [Automaton.fuel_consumption_step]
  rw [hs, hc]
  have heta :
      ({ A with
          cells := A.cells,
          burning_surface_cells := A.burning_surface_cells,
          burning_canopy_cells := A.burning_canopy_cells } : Automaton) = A := rfl
  rw [hs, hc] at heta
  exact heta

theorem crown_step_quiet (A : Automaton) (hs : A.burning_surface_cells = []) :
    A.crown_fire_transition_step = A := by
  simp only [Automaton.crown_fire_transition_step]
  rw [hs]
  have heta :
      ({ A with
          cells := A.cells,
          burning_surface_cells := A.burning_surface_cells,
          burning_canopy_cells := A.burning_canopy_cells ++ [] } : Automaton) = A := by
    rw [List.append_nil]
  rw [hs] at heta
  exact heta

theorem crown_step_nocanopy (A : Automaton) (hcan : A.canopy_cells = []) :
    A.crown_fire_transition_step = A := by
  have h0 : A.burning_surface_cells.foldl
      (fun (p : List Cell × List ℕ) si =>
        let surface_cell := cellAt p.1 si
        if can_crown_fire_initiate A.cfg p.1 surface_cell then
          match find_corresponding_canopy_cell p.1 A.canopy_cells surface_cell with
          | some ci =>
            if (cellAt p.1 ci).dynamic.state = CellState.UNBURNED then
              (p.1.set ci ((cellAt p.1 ci).ignite CellState.CROWN_FIRE), p.2 ++ [ci])
            else p
          | none => p
        else p)
      (A.cells, []) = (A.cells, []) := by
    apply foldl_preserves _ (fun p => p = (A.cells, []))
    · rfl
    · intro b a hb _
      subst hb
      dsimp only
      rw [hcan]
      split
      · rfl
      · rfl
  simp only [Automaton.crown_fire_transition_step]
  rw [h0]
  dsimp only
  rw [List.append_nil]

theorem spot_step_nocc (A : Automaton) (rng : ℕ → ℝ × ℝ)
    (hc : A.burning_canopy_cells = []) : A.spotting_step rng = A := by
  simp only [Automaton.spotting_step]
  rw [hc]
  have heta :
      ({ A with
          cells := A.cells,
          burning_surface_cells := A.burning_surface_cells ++ [],
          burning_canopy_cells := A.burning_canopy_cells } : Automaton) = A := by
    rw [List.append_nil]
  rw [hc] at heta
  exact heta

theorem stats_hist_tail (A : Automaton) :
    (record_history (update_statistics A)).cells = A.cells ∧
    (record_history (update_statistics A)).burning_surface_cells = A.burning_surface_cells ∧
    (record_history (update_statistics A)).burning_canopy_cells = A.burning_canopy_cells ∧
    (record_history (update_statistics A)).surface_cells = A.surface_cells ∧
    (record_history (update_statistics A)).canopy_cells = A.canopy_cells ∧
    (record_history (update_statistics A)).cfg = A.cfg ∧
    (record_history (update_statistics A)).dt = A.dt ∧
    (record_history (update_statistics A)).fuel_consumption_rate = A.fuel_consumption_rate ∧
    (record_history (update_statistics A)).enable_crown_fire = A.enable_crown_fire ∧
    (record_history (update_statistics A)).enable_spotting = A.enable_spotting ∧
    (record_history (update_statistics A)).enable_wind_effects = A.enable_wind_effects ∧
    (record_history (update_statistics A)).current_time = A.current_time ∧
    (record_history (update_statistics A)).stats_burned_area =
      ((A.surface_cells.filter (burnedOrBurning A.cells)).length : ℝ) * A.cell_size ^ 2 := by
  unfold Automaton.record_history
  split <;>
    exact ⟨rfl, rfl, rfl, rfl, rfl, rfl, rfl, rfl, rfl, rfl, rfl, rfl, rfl⟩

theorem step_quiet (A : Automaton) (rng : ℕ → ℝ × ℝ)
    (hs : A.burning_surface_cells = []) (hc : A.burning_canopy_cells = [])
    (hni : ∀ i ∈ A.surface_cells ++ A.canopy_cells, ¬ (cellAt A.cells i).can_ignite) :
    (A.step rng).cells = A.cells ∧
    (A.step rng).burning_surface_cells = [] ∧
    (A.step rng).burning_canopy_cells = [] ∧
    (A.step rng).surface_cells = A.surface_cells ∧
    (A.step rng).canopy_cells = A.canopy_cells ∧
    (A.step rng).cfg = A.cfg ∧
    (A.step rng).dt = A.dt ∧
    (A.step rng).fuel_consumption_rate = A.fuel_consumption_rate ∧
    (A.step rng).current_time = A.current_time + A.dt ∧
    (A.step rng).stats_burned_area =
      ((A.surface_cells.filter (burnedOrBurning A.cells)).length : ℝ) * A.cell_size ^ 2 := by
  have h1 : A.energy_transfer_step = A := energy_step_quiet A hs hc
  have h2 : A.ignition_step = A := ignition_step_quiet A hni
  have h3 : A.fuel_consumption_step = A := fuel_step_quiet A hs hc
  have h4 : (if A.enable_crown_fire then A.crown_fire_transition_step else A) = A := by
    split
    · exact crown_step_quiet A hs
    · rfl
  have h5 : (if A.enable_spotting then A.spotting_step rng else A) = A := by
    split
    · exact spot_step_nocc A rng hc
    · rfl
  have hstep : A.step rng =
      record_history (update_statistics { A with current_time := A.current_time + A.dt }) := by
    simp only [Automaton.step]
    rw [h1, h2, h3, h4, h5]
  rw [hstep]
  obtain ⟨tc, tbs, tbc, tsf, tcn, tcfg, tdt, trate, _, _, _, ttime, tarea⟩ :=
    stats_hist_tail { A with current_time := A.current_time + A.dt }
  exact ⟨tc, tbs.trans hs, tbc.trans hc, tsf, tcn, tcfg, tdt, trate, ttime, tarea⟩

theorem run_quiet (A : Automaton) (end_time : Option ℝ) (rngs : ℕ → ℕ → ℝ × ℝ)
    (hs : A.burning_surface_cells = []) (hc : A.burning_canopy_cells = [])
    (hni : ∀ i ∈ A.surface_cells ++ A.canopy_cells, ¬ (cellAt A.cells i).can_ignite)
    (hlt : A.current_time < end_time.getD A.max_simulation_time) :
    A.run_simulation end_time rngs = A.step (rngs 0) := by
  have q := step_quiet A (rngs 0) hs hc hni
  have hcond : (A.step (rngs 0)).burning_surface_cells.length = 0 ∧
      (A.step (rngs 0)).burning_canopy_cells.length = 0 := by
    rw [q.2.1, q.2.2.1]
    exact ⟨rfl, rfl⟩
  simp only [Automaton.run_simulation, Automaton.runAux]
  rw [if_pos hlt]
  rw [if_pos hcond]

/-- C2 (corrected): with no ignition seeded — every cell of the population
UNBURNED with energy below its ignition threshold, both burning worklists
empty, clock at 0 — `run_simulation` with a positive end time does return
after a single loop iteration with zero burned area; but because the loop
body executes `step()` before testing the worklists, the returned final
time is one clock advance `dt`, not 0. -/
theorem claim_C2_no_ignition_run (A : Automaton) (end_time : Option ℝ)
    (rngs : ℕ → ℕ → ℝ × ℝ) (h0 : A.current_time = 0)
    (hs : A.burning_surface_cells = []) (hc : A.burning_canopy_cells = [])
    (hub : ∀ i ∈ A.surface_cells ++ A.canopy_cells,
      (cellAt A.cells i).dynamic.state = CellState.UNBURNED ∧
      (cellAt A.cells i).dynamic.energy < (cellAt A.cells i).ignition_threshold)
    (hpos : 0 < end_time.getD A.max_simulation_time) :
    (A.run_simulation end_time rngs).current_time = A.dt ∧
    (A.run_simulation end_time rngs).stats_burned_area = 0 := by
  have hni : ∀ i ∈ A.surface_cells ++ A.canopy_cells, ¬ (cellAt A.cells i).can_ignite := by
    intro i hi hcan
    exact absurd hcan.2 (not_le.mpr (hub i hi).2)
  have hrun : A.run_simulation end_time rngs = A.step (rngs 0) :=
    run_quiet A end_time rngs hs hc hni (by rw [h0]; exact hpos)
  have q := step_quiet A (rngs 0) hs hc hni
  constructor
  · rw [hrun, q.2.2.2.2.2.2.2.2.1, h0, zero_add]
  · rw [hrun, q.2.2.2.2.2.2.2.2.2]
    have hfil : A.surface_cells.filter (burnedOrBurning A.cells) = [] := by
      rw [List.filter_eq_nil_iff]
      intro i hi
      have hu := (hub i (List.mem_append_left _ hi)).1
      simp [burnedOrBurning, hu]
    rw [hfil]
    simp

/-- Counterexample to the literal C2: the empty automaton has no ignition
seeded and both worklists empty, yet with positive end time 10 the run
returns final time `dt = 1`, which is not the claimed 0. -/
theorem claim_C2_counterexample :
    emptyAutomaton.burning_surface_cells = [] ∧
    emptyAutomaton.burning_canopy_cells = [] ∧
    (0:ℝ) < (some (10:ℝ)).getD emptyAutomaton.max_simulation_time ∧
    (emptyAutomaton.run_simulation (some 10) constRngs).current_time = 1 ∧
    (1:ℝ) ≠ 0 := by
  have hni : ∀ i ∈ emptyAutomaton.surface_cells ++ emptyAutomaton.canopy_cells,
      ¬ (cellAt emptyAutomaton.cells i).can_ignite := by
    intro i hi
    simp [emptyAutomaton] at hi
  have hlt : emptyAutomaton.current_time <
      (some (10:ℝ)).getD emptyAutomaton.max_simulation_time := by
    show (0:ℝ) < 10
    norm_num
  have hrun := run_quiet emptyAutomaton (some 10) constRngs rfl rfl hni hlt
  have q := step_quiet emptyAutomaton constRng rfl rfl hni
  refine ⟨rfl, rfl, hlt, ?_, by norm_num⟩
  rw [hrun]
  show (emptyAutomaton.step constRng).current_time = 1
  rw [q.2.2.2.2.2.2.2.2.1]
  show (0:ℝ) + 1 = 1
  norm_num

/-- Witness for the amended C2 at the empty automaton with end time 10. -/
theorem claim_C2_witness :
    emptyAutomaton.current_time = 0 ∧
    emptyAutomaton.burning_surface_cells = [] ∧
    emptyAutomaton.burning_canopy_cells = [] ∧
    (0:ℝ) < (some (10:ℝ)).getD emptyAutomaton.max_simulation_time ∧
    ((emptyAutomaton.run_simulation (some 10) constRngs).current_time = emptyAutomaton.dt ∧
     (emptyAutomaton.run_simulation (some 10) constRngs).stats_burned_area = 0) := by
  have hub : ∀ i ∈ emptyAutomaton.surface_cells ++ emptyAutomaton.canopy_cells,
      (cellAt emptyAutomaton.cells i).dynamic.state = CellState.UNBURNED ∧
      (cellAt emptyAutomaton.cells i).dynamic.energy <
        (cellAt emptyAutomaton.cells i).ignition_threshold := by
    intro i hi
    simp [emptyAutomaton] at hi
  have hpos : (0:ℝ) < (some (10:ℝ)).getD emptyAutomaton.max_simulation_time := by
    show (0:ℝ) < 10
    norm_num
  exact ⟨rfl, rfl, rfl, hpos,
    claim_C2_no_ignition_run emptyAutomaton (some 10) constRngs rfl rfl rfl hub hpos⟩

/-! ## C3: the dynamic-moisture toggle and the energy stage -/

theorem c3_transfer_value :
    calculate_energy_transfer c3Automaton.cfg (cellAt c3Automaton.cells 0)
      (cellAt c3Automaton.cells 1) c3Automaton.dt c3Automaton.enable_wind_effects = 5 := by
  show calculate_energy_transfer c3Automaton.cfg c3Source c3Target 1 false = 5
  have hwind : ∀ (v : ℝ × ℝ × ℝ) (sl asp : ℝ),
      wind_effect c3Automaton.cfg v sl asp false = 1 := by
    intro v sl asp
    unfold wind_effect
    rw [if_pos rfl]
  have hmax : (0:ℝ) ≤ c3Automaton.cfg.max_slope_deg := by
    show (0:ℝ) ≤ 55
    norm_num
  have hse : slope_effect c3Automaton.cfg 0 = 1 := by
    simp only [slope_effect]
    rw [abs_zero, zero_mul, zero_div, if_neg (not_lt.mpr hmax), zero_mul, zero_div,
        if_neg (lt_irrefl (0 : ℝ)), mul_zero, Real.exp_zero]
  have hslope : local_slope_of c3Source c3Target = 0 := by
    unfold local_slope_of
    simp [c3Source, c3Target, sub3]
  have hsr : calculate_spread_rate c3Automaton.cfg c3Source c3Target false =
      c3Automaton.cfg.R0 * c3Automaton.cfg.Ks *
        Real.exp (-c3Automaton.cfg.moisture_factor_b *
          c3Target.dynamic.moisture_content) := by
    simp only [calculate_spread_rate]
    rw [hslope, hse, hwind]
    simp only [moisture_effect]
    rw [mul_one, mul_one]
    refine max_eq_right (mul_nonneg ?_ (Real.exp_pos _).le)
    show (0:ℝ) ≤ 0.5 * 1.2
    norm_num
  have hdist : c3Source.distance_to c3Target = 10 := by
    unfold Cell.distance_to
    rw [show (c3Target.static.position.1 - c3Source.static.position.1) ^ 2 +
        (c3Target.static.position.2.1 - c3Source.static.position.2.1) ^ 2 +
        (c3Target.static.position.2.2 - c3Source.static.position.2.2) ^ 2
        = (10:ℝ) ^ 2 by
      show ((10:ℝ) - 0) ^ 2 + ((0:ℝ) - 0) ^ 2 + ((0:ℝ) - 0) ^ 2 = (10:ℝ) ^ 2
      norm_num]
    exact Real.sqrt_sq (by norm_num)
  simp only [calculate_energy_transfer]
  rw [if_neg (by simp [c3Source] : ¬(c3Source.dynamic.state ≠ CellState.SURFACE_FIRE ∧
      c3Source.dynamic.state ≠ CellState.CROWN_FIRE))]
  rw [hdist]
  rw [if_neg (by norm_num : ¬((10:ℝ) = 0))]
  rw [hsr]
  show max ((2:ℝ) * 18500 / 1000 * (0.5 * 1.2 * Real.exp (-(8:ℝ) * 1)) / max 1 10 * 1 * 1)
      ((5:ℝ) * 1) = 5
  have hexp : Real.exp (-(8:ℝ) * 1) ≤ 1 := by
    rw [Real.exp_le_one_iff]
    norm_num
  rw [show max (1:ℝ) 10 = 10 from by norm_num]
  have hle : (2:ℝ) * 18500 / 1000 * (0.5 * 1.2 * Real.exp (-(8:ℝ) * 1)) / 10 * 1 * 1
      ≤ 5 * 1 := by
    calc (2:ℝ) * 18500 / 1000 * (0.5 * 1.2 * Real.exp (-(8:ℝ) * 1)) / 10 * 1 * 1
        = 2.22 * Real.exp (-(8:ℝ) * 1) := by ring
      _ ≤ 2.22 * 1 := mul_le_mul_of_nonneg_left hexp (by norm_num)
      _ ≤ 5 * 1 := by norm_num
  rw [max_eq_right hle]
  norm_num

/-- C3 (code bug): `enable_dynamic_moisture` is stored by the constructor
but never consulted anywhere in the stepper: with the toggle off, stage 1
of `step()` still runs the moisture feedback, and the UNBURNED neighbour's
moisture content drops from 1 to 199/200 within a single
`_energy_transfer_step` call. -/
theorem claim_C3_moisture_toggle_ignored :
    c3Automaton.enable_dynamic_moisture = false ∧
    (cellAt c3Automaton.cells 1).dynamic.moisture_content = 1 ∧
    (cellAt (c3Automaton.energy_transfer_step).cells 1).dynamic.moisture_content
      = 199 / 200 ∧
    ((199 : ℝ) / 200 ≠ 1) := by
  refine ⟨rfl, rfl, ?_, by norm_num⟩
  have hb1 : c3Automaton.burning_surface_cells = [0] := rfl
  have hb2 : c3Automaton.burning_canopy_cells = [] := rfl
  have hn : (cellAt c3Automaton.cells 0).neighbors = [1] := rfl
  have hst : (cellAt c3Automaton.cells 1).dynamic.state = CellState.UNBURNED := rfl
  have hid : (cellAt c3Automaton.cells 1).static.id = 1 := rfl
  have hmap : energyUpdates c3Automaton = [(1, 5)] := by
    unfold Automaton.energyUpdates Automaton.energySources
    rw [hb1, hb2]
    simp only [List.foldl_cons, List.foldl_nil]
    rw [hn]
    simp only [List.foldl_cons, List.foldl_nil]
    rw [if_pos hst, hid, c3_transfer_value]
    rfl
  have humfh : update_moisture_from_heat c3Automaton.cfg
      (Cell.update_energy (cellAt c3Automaton.cells 1) 5) 5 =
      Cell.update_moisture (Cell.update_energy (cellAt c3Automaton.cells 1) 5)
        (-(5 * c3Automaton.cfg.evaporation_coefficient)) := by
    unfold update_moisture_from_heat
    rw [if_pos (by norm_num : (0:ℝ) < 5)]
  have happ : applyEnergyUpdates c3Automaton.cfg c3Automaton.cells
      (c3Automaton.surface_cells ++ c3Automaton.canopy_cells) [(1, 5)] =
      c3Automaton.cells.set 1 (update_moisture_from_heat c3Automaton.cfg
        (Cell.update_energy (cellAt c3Automaton.cells 1) 5) 5) := rfl
  rw [energy_step_cells, hmap, happ, humfh]
  show max 0 ((1:ℝ) + -(5 * 0.001)) = 199 / 200
  rw [max_eq_right (by norm_num : (0:ℝ) ≤ 1 + -(5 * 0.001))]
  norm_num

/-! ## C4: single-cell fuel exhaustion -/

theorem bo_ne_unburned : CellState.BURNED_OUT ≠ CellState.UNBURNED :=
  fun h => CellState.noConfusion h

theorem calculate_energy_transfer_zero (e : FireConfig) (a b : Cell) (dt : ℝ) (w : Bool)
    (hmul : e.energy_transfer_multiplier = 0) (hmin : e.min_energy_transfer = 0) :
    calculate_energy_transfer e a b dt w = 0 := by
  simp only [calculate_energy_transfer]
  split
  · rfl
  · split
    · rfl
    · rw [hmul, hmin, mul_zero, zero_mul, max_self]

theorem addEnergy_all_zero (k : ℕ) (v : ℝ) (hv : v = 0) :
    ∀ m : List (ℕ × ℝ), (∀ p ∈ m, p.2 = 0) → ∀ p ∈ addEnergy m k v, p.2 = 0 := by
  intro m
  induction m with
  | nil =>
    intro _ p hp
    simp only [addEnergy] at hp
    rw [List.mem_singleton] at hp
    rw [hp, hv]
  | cons q m ih =>
    intro hm p hp
    simp only [addEnergy] at hp
    by_cases hq : q.1 = k
    · rw [if_pos hq] at hp
      rcases List.mem_cons.mp hp with h | h
      · rw [h]
        show q.2 + v = 0
        rw [hm q (List.mem_cons_self q m), hv, add_zero]
      · exact hm p (List.mem_cons_of_mem q h)
    · rw [if_neg hq] at hp
      rcases List.mem_cons.mp hp with h | h
      · rw [h]
        exact hm q (List.mem_cons_self q m)
      · exact ih (fun r hr => hm r (List.mem_cons_of_mem q hr)) p h

theorem energySources_all_zero (A : Automaton)
    (hmul : A.cfg.energy_transfer_multiplier = 0) (hmin : A.cfg.min_energy_transfer = 0)
    (srcs : List ℕ) (m : List (ℕ × ℝ))
    (hm : ∀ p ∈ m, p.2 = 0) : ∀ p ∈ energySources A srcs m, p.2 = 0 := by
  have hinner : ∀ (bi : ℕ) (m2 : List (ℕ × ℝ)), (∀ p ∈ m2, p.2 = 0) →
      ∀ p ∈ (cellAt A.cells bi).neighbors.foldl
        (fun m ni =>
          let neighbor := cellAt A.cells ni
          if neighbor.dynamic.state = CellState.UNBURNED then
            addEnergy m neighbor.static.id
              (calculate_energy_transfer A.cfg (cellAt A.cells bi) neighbor A.dt
                A.enable_wind_effects)
          else m)
        m2, p.2 = 0 := by
    intro bi m2 hm2
    refine foldl_preserves _ (fun mm => ∀ p ∈ mm, p.2 = 0) _ m2 hm2 ?_
    intro m3 ni hm3 _
    dsimp only
    split
    · exact addEnergy_all_zero _ _
        (calculate_energy_transfer_zero _ _ _ _ _ hmul hmin) m3 hm3
    · exact hm3
  unfold Automaton.energySources
  refine foldl_preserves _ (fun mm => ∀ p ∈ mm, p.2 = 0) srcs m hm ?_
  intro m2 bi hm2 _
  exact hinner bi m2 hm2

theorem lookupEnergy_mem : ∀ (m : List (ℕ × ℝ)) (k : ℕ) (v : ℝ),
    lookupEnergy m k = some v → (k, v) ∈ m := by
  intro m
  induction m with
  | nil =>
    intro k v h
    exact absurd h (by simp [lookupEnergy])
  | cons p m ih =>
    intro k v h
    simp only [lookupEnergy] at h
    by_cases hp : p.1 = k
    · rw [if_pos hp] at h
      have hv := Option.some.inj h
      subst hp
      rw [← hv]
      exact List.mem_cons_self p m
    · rw [if_neg hp] at h
      exact List.mem_cons_of_mem p (ih k v h)

theorem update_energy_zero (c : Cell) : c.update_energy 0 = c := by
  unfold Cell.update_energy
  rw [add_zero]

theorem umfh_zero (e : FireConfig) (c : Cell) : update_moisture_from_heat e c 0 = c := by
  unfold update_moisture_from_heat
  rw [if_neg (lt_irrefl (0:ℝ))]

theorem applyEnergy_zero (cfg : FireConfig) :
    ∀ (pop : List ℕ) (cells : List Cell) (m : List (ℕ × ℝ)),
      (∀ p ∈ m, p.2 = 0) → (∀ j ∈ pop, j < cells.length) →
      applyEnergyUpdates cfg cells pop m = cells := by
  intro pop
  induction pop with
  | nil => intro cells m _ _; rfl
  | cons i rest ih =>
    intro cells m hm hlen
    unfold Automaton.applyEnergyUpdates
    rw [List.foldl_cons]
    dsimp only
    cases hl : lookupEnergy m (cellAt cells i).static.id with
    | none =>
      exact ih cells m hm (fun j hj => hlen j (List.mem_cons_of_mem i hj))
    | some er =>
      have her : er = 0 := hm _ (lookupEnergy_mem m _ er hl)
      subst her
      simp only [update_energy_zero, umfh_zero, set_cellAt_self]
      exact ih cells m hm (fun j hj => hlen j (List.mem_cons_of_mem i hj))

theorem energy_step_zero (A : Automaton)
    (hmul : A.cfg.energy_transfer_multiplier = 0) (hmin : A.cfg.min_energy_transfer = 0)
    (hlen : ∀ j ∈ A.surface_cells ++ A.canopy_cells, j < A.cells.length) :
    A.energy_transfer_step = A := by
  have hz : ∀ p ∈ energyUpdates A, p.2 = 0 := by
    unfold Automaton.energyUpdates
    exact energySources_all_zero A hmul hmin _ _
      (energySources_all_zero A hmul hmin _ _
        (fun p hp => absurd hp (List.not_mem_nil p)))
  unfold Automaton.energy_transfer_step
  rw [applyEnergy_zero A.cfg _ _ _ hz hlen]

theorem consume_fuel_live (c : Cell) (r dt : ℝ)
    (h : 0 < c.dynamic.fuel_load - r * dt) :
    (c.consume_fuel r dt).dynamic.state = c.dynamic.state ∧
    (c.consume_fuel r dt).dynamic.fuel_load = c.dynamic.fuel_load - r * dt := by
  have hmax : max 0 (c.dynamic.fuel_load - r * dt) = c.dynamic.fuel_load - r * dt :=
    max_eq_right h.le
  have hcond : ¬ (max 0 (c.dynamic.fuel_load - r * dt) ≤ 0) := by
    rw [hmax]
    exact not_le.mpr h
  simp only [Cell.consume_fuel]
  rw [if_neg hcond]
  exact ⟨rfl, hmax⟩

theorem consume_fuel_burnout (c : Cell) (r dt : ℝ)
    (h : c.dynamic.fuel_load - r * dt ≤ 0) :
    (c.consume_fuel r dt).dynamic.state = CellState.BURNED_OUT ∧
    (c.consume_fuel r dt).dynamic.fuel_load = 0 := by
  have hmax : max 0 (c.dynamic.fuel_load - r * dt) = 0 := max_eq_left h
  have hcond : max 0 (c.dynamic.fuel_load - r * dt) ≤ 0 := le_of_eq hmax
  simp only [Cell.consume_fuel]
  rw [if_pos hcond]
  exact ⟨rfl, rfl⟩

theorem fuelPass_single_live (cells : List Cell) (s : ℕ) (rate dt : ℝ)
    (h : ¬ ((cellAt cells s).consume_fuel rate dt).dynamic.state = CellState.BURNED_OUT) :
    fuelPass cells [s] rate dt =
      (cells.set s ((cellAt cells s).consume_fuel rate dt), [s]) := by
  unfold Automaton.fuelPass
  simp only [List.foldl_cons, List.foldl_nil]
  rw [if_neg h]
  rfl

theorem fuelPass_single_burnout (cells : List Cell) (s : ℕ) (rate dt : ℝ)
    (h : ((cellAt cells s).consume_fuel rate dt).dynamic.state = CellState.BURNED_OUT) :
    fuelPass cells [s] rate dt =
      (cells.set s ((cellAt cells s).consume_fuel rate dt), []) := by
  unfold Automaton.fuelPass
  simp only [List.foldl_cons, List.foldl_nil]
  rw [if_pos h]
  simp only [List.nil_append, List.foldl_cons, List.foldl_nil]
  rw [List.erase_cons_head]

theorem c4_fuel_step (B : Automaton) (s : ℕ) (hbsc : B.burning_surface_cells = [s])
    (hbcc : B.burning_canopy_cells = []) :
    B.fuel_consumption_step =
      { B with
          cells := B.cells.set s
            ((cellAt B.cells s).consume_fuel B.fuel_consumption_rate B.dt),
          burning_surface_cells :=
            if ((cellAt B.cells s).consume_fuel B.fuel_consumption_rate
                B.dt).dynamic.state = CellState.BURNED_OUT then [] else [s],
          burning_canopy_cells := [] } := by
  simp only [Automaton.fuel_consumption_step]
  rw [hbsc, hbcc]
  by_cases h : ((cellAt B.cells s).consume_fuel B.fuel_consumption_rate
      B.dt).dynamic.state = CellState.BURNED_OUT
  · rw [fuelPass_single_burnout _ _ _ _ h, if_pos h]
    rfl
  · rw [fuelPass_single_live _ _ _ _ h, if_neg h]
    rfl

theorem step_decomp (B : Automaton) (rng : ℕ → ℝ × ℝ)
    (h1 : B.energy_transfer_step = B) (h2 : B.ignition_step = B)
    (C : Automaton) (h3 : B.fuel_consumption_step = C)
    (h4c : C.canopy_cells = []) (h4b : C.burning_canopy_cells = []) :
    B.step rng =
      record_history (update_statistics
        { C with current_time := C.current_time + C.dt }) := by
  have h4 : (if C.enable_crown_fire then C.crown_fire_transition_step else C) = C := by
    split
    · exact crown_step_nocanopy C h4c
    · rfl
  have h5 : (if C.enable_spotting then C.spotting_step rng else C) = C := by
    split
    · exact spot_step_nocc C rng h4b
    · rfl
  simp only [Automaton.step]
  rw [h1, h2, h3, h4, h5]

theorem c4_no_ignite (B : Automaton) (s : ℕ)
    (hcanop : B.canopy_cells = [])
    (hstate : (cellAt B.cells s).dynamic.state ≠ CellState.UNBURNED)
    (hnoign : ∀ j ∈ B.surface_cells, j ≠ s → ¬ (cellAt B.cells j).can_ignite) :
    ∀ i ∈ B.surface_cells ++ B.canopy_cells, ¬ (cellAt B.cells i).can_ignite := by
  intro i hi
  rcases List.mem_append.mp hi with h | h
  · by_cases his : i = s
    · subst his
      intro hcan
      exact hstate hcan.1
    · exact hnoign i h his
  · rw [hcanop] at h
    exact absurd h (List.not_mem_nil i)

theorem c4_step_live (B : Automaton) (rng : ℕ → ℝ × ℝ) (s : ℕ)
    (hmul : B.cfg.energy_transfer_multiplier = 0) (hmin : B.cfg.min_energy_transfer = 0)
    (hpop : ∀ j ∈ B.surface_cells ++ B.canopy_cells, j < B.cells.length)
    (hcanop : B.canopy_cells = [])
    (hbsc : B.burning_surface_cells = [s]) (hbcc : B.burning_canopy_cells = [])
    (hstate : (cellAt B.cells s).dynamic.state = CellState.SURFACE_FIRE)
    (hnoign : ∀ j ∈ B.surface_cells, j ≠ s → ¬ (cellAt B.cells j).can_ignite)
    (hlive : 0 < (cellAt B.cells s).dynamic.fuel_load -
      B.fuel_consumption_rate * B.dt) :
    (B.step rng).cells = B.cells.set s
      ((cellAt B.cells s).consume_fuel B.fuel_consumption_rate B.dt) ∧
    (B.step rng).burning_surface_cells = [s] ∧
    (B.step rng).burning_canopy_cells = [] ∧
    (B.step rng).surface_cells = B.surface_cells ∧
    (B.step rng).canopy_cells = B.canopy_cells ∧
    (B.step rng).cfg = B.cfg ∧
    (B.step rng).dt = B.dt ∧
    (B.step rng).fuel_consumption_rate = B.fuel_consumption_rate := by
  have hni := c4_no_ignite B s hcanop (by rw [hstate]; exact sf_ne_unburned) hnoign
  have h1 := energy_step_zero B hmul hmin hpop
  have h2 := ignition_step_quiet B hni
  have hnotBO : ¬ (((cellAt B.cells s).consume_fuel B.fuel_consumption_rate
      B.dt).dynamic.state = CellState.BURNED_OUT) := by
    rw [(consume_fuel_live _ _ _ hlive).1, hstate]
    exact fun hq => CellState.noConfusion hq
  have h3 := c4_fuel_step B s hbsc hbcc
  rw [if_neg hnotBO] at h3
  have hstep := step_decomp B rng h1 h2 _ h3 hcanop rfl
  rw [hstep]
  exact ⟨(stats_hist_tail _).1, (stats_hist_tail _).2.1, (stats_hist_tail _).2.2.1,
    (stats_hist_tail _).2.2.2.1, (stats_hist_tail _).2.2.2.2.1,
    (stats_hist_tail _).2.2.2.2.2.1, (stats_hist_tail _).2.2.2.2.2.2.1,
    (stats_hist_tail _).2.2.2.2.2.2.2.1⟩

theorem c4_step_burnout (B : Automaton) (rng : ℕ → ℝ × ℝ) (s : ℕ)
    (hmul : B.cfg.energy_transfer_multiplier = 0) (hmin : B.cfg.min_energy_transfer = 0)
    (hpop : ∀ j ∈ B.surface_cells ++ B.canopy_cells, j < B.cells.length)
    (hcanop : B.canopy_cells = [])
    (hbsc : B.burning_surface_cells = [s]) (hbcc : B.burning_canopy_cells = [])
    (hstate : (cellAt B.cells s).dynamic.state = CellState.SURFACE_FIRE)
    (hnoign : ∀ j ∈ B.surface_cells, j ≠ s → ¬ (cellAt B.cells j).can_ignite)
    (hburn : (cellAt B.cells s).dynamic.fuel_load -
      B.fuel_consumption_rate * B.dt ≤ 0) :
    (B.step rng).cells = B.cells.set s
      ((cellAt B.cells s).consume_fuel B.fuel_consumption_rate B.dt) ∧
    (B.step rng).burning_surface_cells = [] ∧
    (B.step rng).burning_canopy_cells = [] ∧
    (B.step rng).surface_cells = B.surface_cells ∧
    (B.step rng).canopy_cells = B.canopy_cells ∧
    (B.step rng).cfg = B.cfg ∧
    (B.step rng).dt = B.dt ∧
    (B.step rng).fuel_consumption_rate = B.fuel_consumption_rate := by
  have hni := c4_no_ignite B s hcanop (by rw [hstate]; exact sf_ne_unburned) hnoign
  have h1 := energy_step_zero B hmul hmin hpop
  have h2 := ignition_step_quiet B hni
  have hBO : ((cellAt B.cells s).consume_fuel B.fuel_consumption_rate
      B.dt).dynamic.state = CellState.BURNED_OUT := (consume_fuel_burnout _ _ _ hburn).1
  have h3 := c4_fuel_step B s hbsc hbcc
  rw [if_pos hBO] at h3
  have hstep := step_decomp B rng h1 h2 _ h3 hcanop rfl
  rw [hstep]
  exact ⟨(stats_hist_tail _).1, (stats_hist_tail _).2.1, (stats_hist_tail _).2.2.1,
    (stats_hist_tail _).2.2.2.1, (stats_hist_tail _).2.2.2.2.1,
    (stats_hist_tail _).2.2.2.2.2.1, (stats_hist_tail _).2.2.2.2.2.2.1,
    (stats_hist_tail _).2.2.2.2.2.2.2.1⟩

theorem c4_invariant (A : Automaton) (rngs : ℕ → ℕ → ℝ × ℝ) (s : ℕ)
    (hmul : A.cfg.energy_transfer_multiplier = 0) (hmin : A.cfg.min_energy_transfer = 0)
    (hpop : ∀ j ∈ A.surface_cells ++ A.canopy_cells, j < A.cells.length)
    (hcanop : A.canopy_cells = [])
    (hbsc : A.burning_surface_cells = [s]) (hbcc : A.burning_canopy_cells = [])
    (hslen : s < A.cells.length)
    (hstate : (cellAt A.cells s).dynamic.state = CellState.SURFACE_FIRE)
    (hnoign : ∀ j ∈ A.surface_cells, j ≠ s → ¬ (cellAt A.cells j).can_ignite)
    (hR : 0 < A.fuel_consumption_rate) (hdt : 0 < A.dt)
    (hF : 0 < (cellAt A.cells s).dynamic.fuel_load) :
    ∀ m : ℕ,
      ((m < ⌈(cellAt A.cells s).dynamic.fuel_load /
          (A.fuel_consumption_rate * A.dt)⌉₊ →
        (stepN A rngs m).burning_surface_cells = [s] ∧
        (cellAt (stepN A rngs m).cells s).dynamic.state = CellState.SURFACE_FIRE ∧
        (cellAt (stepN A rngs m).cells s).dynamic.fuel_load =
          (cellAt A.cells s).dynamic.fuel_load -
            m * (A.fuel_consumption_rate * A.dt)) ∧
       (⌈(cellAt A.cells s).dynamic.fuel_load /
          (A.fuel_consumption_rate * A.dt)⌉₊ ≤ m →
        (stepN A rngs m).burning_surface_cells = [] ∧
        (cellAt (stepN A rngs m).cells s).dynamic.state = CellState.BURNED_OUT)) ∧
      ((stepN A rngs m).burning_canopy_cells = [] ∧
       (stepN A rngs m).surface_cells = A.surface_cells ∧
       (stepN A rngs m).canopy_cells = A.canopy_cells ∧
       (stepN A rngs m).cfg = A.cfg ∧
       (stepN A rngs m).dt = A.dt ∧
       (stepN A rngs m).fuel_consumption_rate = A.fuel_consumption_rate ∧
       (stepN A rngs m).cells.length = A.cells.length ∧
       (∀ j, j ≠ s → cellAt (stepN A rngs m).cells j = cellAt A.cells j)) := by
  set n := ⌈(cellAt A.cells s).dynamic.fuel_load /
      (A.fuel_consumption_rate * A.dt)⌉₊ with hn
  intro m
  induction m with
  | zero =>
    constructor
    · constructor
      · intro _
        refine ⟨hbsc, hstate, ?_⟩
        rw [Nat.cast_zero, zero_mul, sub_zero]
        rfl
      · intro hle
        have hnpos : 0 < n := by
          rw [hn]
          exact Nat.ceil_pos.mpr (div_pos hF (mul_pos hR hdt))
        omega
    · exact ⟨hbcc, rfl, rfl, rfl, rfl, rfl, rfl, fun j _ => rfl⟩
  | succ m ih =>
    obtain ⟨⟨ihlive, ihdead⟩, ihbcc, ihsf, ihcn, ihcfg, ihdt, ihrate, ihlen, ihother⟩ := ih
    set B := stepN A rngs m with hB
    have hBmul : B.cfg.energy_transfer_multiplier = 0 := by rw [ihcfg]; exact hmul
    have hBmin : B.cfg.min_energy_transfer = 0 := by rw [ihcfg]; exact hmin
    have hBpop : ∀ j ∈ B.surface_cells ++ B.canopy_cells, j < B.cells.length := by
      intro j hj
      rw [ihsf, ihcn] at hj
      rw [ihlen]
      exact hpop j hj
    have hBcanop : B.canopy_cells = [] := by rw [ihcn]; exact hcanop
    have hBlen_s : s < B.cells.length := by rw [ihlen]; exact hslen
    have hBnoign : ∀ j ∈ B.surface_cells, j ≠ s → ¬ (cellAt B.cells j).can_ignite := by
      intro j hj hne
      rw [ihother j hne]
      rw [ihsf] at hj
      exact hnoign j hj hne
    simp only [stepN]
    rw [← hB]
    by_cases hcase : n ≤ m
    · have hDbsc : B.burning_surface_cells = [] := (ihdead hcase).1
      have hDstate : (cellAt B.cells s).dynamic.state = CellState.BURNED_OUT :=
        (ihdead hcase).2
      have hni := c4_no_ignite B s hBcanop
        (by rw [hDstate]; exact bo_ne_unburned) hBnoign
      have q := step_quiet B (rngs m) hDbsc ihbcc hni
      refine ⟨⟨?_, ?_⟩, ?_, ?_, ?_, ?_, ?_, ?_, ?_, ?_⟩
      · intro hlt
        omega
      · intro _
        refine ⟨q.2.1, ?_⟩
        rw [q.1]
        exact hDstate
      · exact q.2.2.1
      · exact q.2.2.2.1.trans ihsf
      · exact q.2.2.2.2.1.trans ihcn
      · exact q.2.2.2.2.2.1.trans ihcfg
      · exact q.2.2.2.2.2.2.1.trans ihdt
      · exact q.2.2.2.2.2.2.2.1.trans ihrate
      · rw [q.1]
        exact ihlen
      · intro j hj
        rw [q.1]
        exact ihother j hj
    · have hmlt : m < n := not_le.mp hcase
      have hBbsc : B.burning_surface_cells = [s] := (ihlive hmlt).1
      have hBstate : (cellAt B.cells s).dynamic.state = CellState.SURFACE_FIRE :=
        (ihlive hmlt).2.1
      have hBfuel : (cellAt B.cells s).dynamic.fuel_load =
          (cellAt A.cells s).dynamic.fuel_load -
            m * (A.fuel_consumption_rate * A.dt) := (ihlive hmlt).2.2
      have hexpand : ((m:ℝ) + 1) * (A.fuel_consumption_rate * A.dt) =
          m * (A.fuel_consumption_rate * A.dt) +
            A.fuel_consumption_rate * A.dt := by ring
      by_cases hcase2 : m + 1 < n
      · have hcase2c := hcase2
        rw [hn] at hcase2c
        have hlt := Nat.lt_ceil.mp hcase2c
        push_cast at hlt
        have hgt := (lt_div_iff (mul_pos hR hdt)).mp hlt
        have hBlive : 0 < (cellAt B.cells s).dynamic.fuel_load -
            B.fuel_consumption_rate * B.dt := by
          rw [hBfuel, ihrate, ihdt]
          linarith [hgt, hexpand]
        have hstep := c4_step_live B (rngs m) s hBmul hBmin hBpop hBcanop hBbsc ihbcc
          hBstate hBnoign hBlive
        refine ⟨⟨?_, ?_⟩, ?_, ?_, ?_, ?_, ?_, ?_, ?_, ?_⟩
        · intro _
          refine ⟨hstep.2.1, ?_, ?_⟩
          · rw [hstep.1, cellAt_set, if_pos ⟨rfl, hBlen_s⟩]
            exact (consume_fuel_live _ _ _ hBlive).1.trans hBstate
          · rw [hstep.1, cellAt_set, if_pos ⟨rfl, hBlen_s⟩,
                (consume_fuel_live _ _ _ hBlive).2, hBfuel, ihrate, ihdt]
            push_cast
            ring
        · intro hge
          omega
        · exact hstep.2.2.1
        · exact hstep.2.2.2.1.trans ihsf
        · exact hstep.2.2.2.2.1.trans ihcn
        · exact hstep.2.2.2.2.2.1.trans ihcfg
        · exact hstep.2.2.2.2.2.2.1.trans ihdt
        · exact hstep.2.2.2.2.2.2.2.trans ihrate
        · rw [hstep.1, List.length_set]
          exact ihlen
        · intro j hj
          rw [hstep.1, cellAt_set_ne _ _ _ _ (Ne.symm hj)]
          exact ihother j hj
      · have hge : n ≤ m + 1 := not_lt.mp hcase2
        have hdivle : (cellAt A.cells s).dynamic.fuel_load /
            (A.fuel_consumption_rate * A.dt) ≤ ((m + 1 : ℕ) : ℝ) := by
          calc (cellAt A.cells s).dynamic.fuel_load /
              (A.fuel_consumption_rate * A.dt) ≤ (n : ℝ) := by
                rw [hn]
                exact Nat.le_ceil _
            _ ≤ ((m + 1 : ℕ) : ℝ) := Nat.cast_le.mpr hge
        have hFle := (div_le_iff (mul_pos hR hdt)).mp hdivle
        push_cast at hFle
        have hBburn : (cellAt B.cells s).dynamic.fuel_load -
            B.fuel_consumption_rate * B.dt ≤ 0 := by
          rw [hBfuel, ihrate, ihdt]
          linarith [hFle, hexpand]
        have hstep := c4_step_burnout B (rngs m) s hBmul hBmin hBpop hBcanop hBbsc ihbcc
          hBstate hBnoign hBburn
        refine ⟨⟨?_, ?_⟩, ?_, ?_, ?_, ?_, ?_, ?_, ?_, ?_⟩
        · intro hlt
          omega
        · intro _
          refine ⟨hstep.2.1, ?_⟩
          rw [hstep.1, cellAt_set, if_pos ⟨rfl, hBlen_s⟩]
          exact (consume_fuel_burnout _ _ _ hBburn).1
        · exact hstep.2.2.1
        · exact hstep.2.2.2.1.trans ihsf
        · exact hstep.2.2.2.2.1.trans ihcn
        · exact hstep.2.2.2.2.2.1.trans ihcfg
        · exact hstep.2.2.2.2.2.2.1.trans ihdt
        · exact hstep.2.2.2.2.2.2.2.trans ihrate
        · rw [hstep.1, List.length_set]
          exact ihlen
        · intro j hj
          rw [hstep.1, cellAt_set_ne _ _ _ _ (Ne.symm hj)]
          exact ihother j hj

/-- C4: for a single burning surface cell (worklists `[s]` and `[]`, empty
canopy population, energy transfer disabled through a zero multiplier and
zero floor, no other population cell able to ignite), with fuel F > 0,
consumption rate R > 0 and time step dt > 0, repeated `step()` calls keep
the cell in SURFACE_FIRE for the first `⌈F/(R·dt)⌉ − 1` steps and bring it
to BURNED_OUT at step `⌈F/(R·dt)⌉` (where it stays), while every other
cell — in particular every neighbour — is never modified at all. -/
theorem claim_C4_single_cell_burnout (A : Automaton) (rngs : ℕ → ℕ → ℝ × ℝ) (s : ℕ)
    (hmul : A.cfg.energy_transfer_multiplier = 0) (hmin : A.cfg.min_energy_transfer = 0)
    (hpop : ∀ j ∈ A.surface_cells ++ A.canopy_cells, j < A.cells.length)
    (hcanop : A.canopy_cells = [])
    (hbsc : A.burning_surface_cells = [s]) (hbcc : A.burning_canopy_cells = [])
    (hslen : s < A.cells.length)
    (hstate : (cellAt A.cells s).dynamic.state = CellState.SURFACE_FIRE)
    (hnoign : ∀ j ∈ A.surface_cells, j ≠ s → ¬ (cellAt A.cells j).can_ignite)
    (hR : 0 < A.fuel_consumption_rate) (hdt : 0 < A.dt)
    (hF : 0 < (cellAt A.cells s).dynamic.fuel_load) :
    (∀ m, m < ⌈(cellAt A.cells s).dynamic.fuel_load /
        (A.fuel_consumption_rate * A.dt)⌉₊ →
      stateAt (stepN A rngs m).cells s = CellState.SURFACE_FIRE) ∧
    (∀ m, ⌈(cellAt A.cells s).dynamic.fuel_load /
        (A.fuel_consumption_rate * A.dt)⌉₊ ≤ m →
      stateAt (stepN A rngs m).cells s = CellState.BURNED_OUT) ∧
    (∀ m j, j ≠ s → cellAt (stepN A rngs m).cells j = cellAt A.cells j) := by
  have hinv := c4_invariant A rngs s hmul hmin hpop hcanop hbsc hbcc hslen hstate
    hnoign hR hdt hF
  exact ⟨fun m hm => ((hinv m).1.1 hm).2.1, fun m hm => ((hinv m).1.2 hm).2,
    fun m j hj => (hinv m).2.2.2.2.2.2.2.2 j hj⟩

/-- Witness for C4: one burning cell with fuel 2, rate 1, dt 1 — still on
surface fire after step 1, burned out from step 2 (= ⌈2/1⌉) on. -/
theorem claim_C4_witness :
    (0:ℝ) < (cellAt c4Automaton.cells 0).dynamic.fuel_load ∧
    0 < c4Automaton.fuel_consumption_rate ∧ 0 < c4Automaton.dt ∧
    c4Automaton.burning_surface_cells = [0] ∧ c4Automaton.canopy_cells = [] ∧
    (stateAt (stepN c4Automaton constRngs 1).cells 0 = CellState.SURFACE_FIRE ∧
     stateAt (stepN c4Automaton constRngs 2).cells 0 = CellState.BURNED_OUT ∧
     stateAt (stepN c4Automaton constRngs 3).cells 0 = CellState.BURNED_OUT) := by
  have hR : (0:ℝ) < c4Automaton.fuel_consumption_rate := by
    show (0:ℝ) < 1
    norm_num
  have hdt : (0:ℝ) < c4Automaton.dt := by
    show (0:ℝ) < 1
    norm_num
  have hF : (0:ℝ) < (cellAt c4Automaton.cells 0).dynamic.fuel_load := by
    show (0:ℝ) < 2
    norm_num
  have hpop : ∀ j ∈ c4Automaton.surface_cells ++ c4Automaton.canopy_cells,
      j < c4Automaton.cells.length := by
    intro j hj
    simp [c4Automaton] at hj ⊢
    omega
  have hslen : (0:ℕ) < c4Automaton.cells.length := by
    simp [c4Automaton]
  have hnoign : ∀ j ∈ c4Automaton.surface_cells, j ≠ 0 →
      ¬ (cellAt c4Automaton.cells j).can_ignite := by
    intro j hj hne
    simp [c4Automaton] at hj
    exact absurd hj hne
  have main := claim_C4_single_cell_burnout c4Automaton constRngs 0 rfl rfl hpop rfl
    rfl rfl hslen rfl hnoign hR hdt hF
  have hn : ⌈(cellAt c4Automaton.cells 0).dynamic.fuel_load /
      (c4Automaton.fuel_consumption_rate * c4Automaton.dt)⌉₊ = 2 := by
    show ⌈(2:ℝ) / (1 * 1)⌉₊ = 2
    norm_num
  refine ⟨hF, hR, hdt, rfl, rfl, ?_, ?_, ?_⟩
  · exact main.1 1 (by rw [hn]; norm_num)
  · exact main.2.1 2 (by rw [hn])
  · exact main.2.1 3 (by rw [hn]; norm_num)

end FireSpread
